import Mathlib

/-!
# fema-cli: a verification development of `main.go`

The program geocodes one fixed address, builds one feature query against the
National Risk Index feature service, decodes the answer and prints the risk
record of the single feature it expects.

The embedding below follows `main.go` function by function.  What lies outside
the repository (the geocoding provider, the HTTP transport, the JSON decoder) is
a field of `World`, so every theorem holds whatever those collaborators answer.
What the program prints and which network calls it issues are recorded in
`Effects`, threaded through `esriGeometryPointForAddress`, `run` and `main`.

Go values are embedded as follows.
* `string` is `String`, `int` is `Int`, `len` of a slice is `List.length`.
* `float64` is `Float64`: a sign, a significand and a binary exponent (the value
  is `± mant * 2 ^ exp`), or an infinity, or NaN.  `Float64.isIEEE` singles out
  the encoding a float64 carries; the JSON encoder works on that encoding
  (`canonical`), so its text depends on the value only.
* `error` is `Option String`: `none` is `nil`, `some msg` is an error whose
  `Error()` text is `msg`.
* The standard-library routines the program calls on fixed formats (`%.2f`,
  `Println`, `json.Marshal` of `Geometry`, `url.Values`) are written out after
  their documented behaviour.
-/

namespace FemaCli

/-! ## float64 -/

/-- A Go `float64`: the finite value `(-1)^neg * mant * 2^exp` (for an IEEE
double `mant < 2^53` and `-1074 ≤ exp ≤ 971`, a normal number having
`2^52 ≤ mant`), an infinity, or NaN. -/
inductive Float64 where
  | finite (neg : Bool) (mant : Nat) (exp : Int)
  | inf (neg : Bool)
  | nan
deriving DecidableEq

/-- Go `math.IsInf(f, 0) || math.IsNaN(f)` negated. -/
def Float64.isFinite : Float64 → Bool
  | .finite _ _ _ => true
  | _ => false

/-- The float64 zero value `0`. -/
def Float64.zero : Float64 := .finite false 0 (-1074)

/-- Two to the power `e` as a fraction `(numerator, denominator)`. -/
def pow2Frac : Int → Nat × Nat
  | .ofNat k => (2 ^ k, 1)
  | .negSucc k => (1, 2 ^ (k + 1))

/-- Ten to the power `k` as a fraction `(numerator, denominator)`. -/
def pow10Frac : Int → Nat × Nat
  | .ofNat k => (10 ^ k, 1)
  | .negSucc k => (1, 10 ^ (k + 1))

/-- The nearest integer to `num / den`, a tie going to the even neighbour. -/
def roundHalfEven (num den : Nat) : Nat :=
  let q := num / den
  let r := num % den
  if 2 * r < den then q
  else if den < 2 * r then q + 1
  else if q % 2 = 0 then q else q + 1

/-! ## `%.2f` (package fmt over strconv, format `f`, precision 2) -/

/-- The magnitude `mant * 2^exp` in hundredths, rounded to the nearest integer
with ties to even: the digits `strconv` keeps for format `f`, precision 2. -/
def hundredths (mant : Nat) (exp : Int) : Nat :=
  roundHalfEven (100 * mant * (pow2Frac exp).1) (pow2Frac exp).2

/-- The text of `n` hundredths: sign, integer part, point, two digits. -/
def fixed2 (neg : Bool) (n : Nat) : String :=
  (if neg then "-" else "") ++ toString (n / 100) ++ "." ++
    String.mk [Nat.digitChar (n / 10 % 10), Nat.digitChar (n % 10)]

/-- The verb `%.2f` applied to a float64. -/
def formatFloat2 : Float64 → String
  | .nan => "NaN"
  | .inf false => "+Inf"
  | .inf true => "-Inf"
  | .finite neg m e => fixed2 neg (hundredths m e)

/-- Go `fmt.Sprintln`-style rendering of string operands: a space between
operands and a newline at the end. -/
def Sprintln (operands : List String) : String :=
  " ".intercalate operands ++ "\n"

/-! ## The data model of `main.go` -/

/-- Go `type SpatialReference struct`. -/
structure SpatialReference where
  LatestWKID : Int
  WKID : Int
deriving DecidableEq

/-- Go `type Geometry struct`; its pointer field is never nil in the program. -/
structure Geometry where
  SpatialReference : SpatialReference
  X : Float64
  Y : Float64
deriving DecidableEq

/-- Go `type Attributes struct`. -/
structure Attributes where
  State : String
  County : String
  RiskScore : Float64
  RiskRating : String
  DroughtRiskScore : Float64
  DroughtRiskRating : String
  EarthquakeRiskScore : Float64
  EarthquakeRiskRating : String
  TornadoRiskScore : Float64
  TornadoRiskRating : String
deriving DecidableEq

/-- Go `type Feature struct` (the field name is spelled as in the source). -/
structure Feature where
  Attritubes : Attributes
deriving DecidableEq

/-- Go `type Result struct`. -/
structure Result where
  Features : List Feature
deriving DecidableEq

/-- Go `func (a Attributes) String() string`: ten writes to a string builder. -/
def Attributes.String (a : Attributes) : String :=
  let b := ""
  let b := b ++ Sprintln ["State:", a.State]
  let b := b ++ Sprintln ["County:", a.County]
  let b := b ++ ("RiskScore: " ++ formatFloat2 a.RiskScore ++ "\n")
  let b := b ++ Sprintln ["RiskRating:", a.RiskRating]
  let b := b ++ ("DroughtRiskScore: " ++ formatFloat2 a.DroughtRiskScore ++ "\n")
  let b := b ++ Sprintln ["DroughtRiskRating:", a.DroughtRiskRating]
  let b := b ++ ("EarthquakeRiskScore: " ++ formatFloat2 a.EarthquakeRiskScore ++ "\n")
  let b := b ++ Sprintln ["EarthquakeRiskRating:", a.EarthquakeRiskRating]
  let b := b ++ ("TornadoRiskScore: " ++ formatFloat2 a.TornadoRiskScore ++ "\n")
  let b := b ++ Sprintln ["TornadoRiskRating:", a.TornadoRiskRating]
  b

/-! ## Shortest decimal digits of a float64 (strconv, precision -1) -/

/-- The candidate with decimal exponent `k`, when one lies in the rounding
interval of the float64 with the IEEE encoding `mant * 2^exp`.  In units of `2^(exp-2)` the value is `4*mant`, the
upper bound (halfway to the next float) is `4*mant+2` and the lower bound is
`4*mant-2`, or `4*mant-1` when the float below is half as far away.  The bounds
themselves are allowed when `mant` is even.  When both the truncation and its
successor are allowed the nearer one is taken, a tie going to the even digit. -/
def shortestAt (mant : Nat) (exp : Int) (k : Int) : Option Nat :=
  let v := 4 * mant
  let upper := 4 * mant + 2
  let lower := if 2 ^ 52 < mant ∨ exp = -1074 then 4 * mant - 2 else 4 * mant - 1
  let inclusive := mant % 2 = 0
  let a := (pow10Frac k).1 * (pow2Frac (exp - 2)).2
  let b := (pow2Frac (exp - 2)).1 * (pow10Frac k).2
  let down := v * b / a
  let rest := v * b % a
  let okdown := if inclusive then lower * b ≤ down * a else lower * b < down * a
  let okup := if inclusive then (down + 1) * a ≤ upper * b else (down + 1) * a < upper * b
  if okdown ∧ okup then
    some (if 2 * rest < a then down else if a < 2 * rest then down + 1
      else if down % 2 = 0 then down else down + 1)
  else if okdown then some down
  else if okup then some (down + 1)
  else none

/-- Walk the decimal exponent down from `kmin + i` to `kmin` and stop at the first
exponent with a candidate; at `kmin` the value is itself a multiple of `10^kmin`
and is returned exactly. -/
def shortestFrom (mant : Nat) (exp : Int) (kmin : Int) : Nat → Nat × Int
  | 0 => (4 * mant * ((pow2Frac (exp - 2)).1 * (pow10Frac kmin).2) /
            ((pow10Frac kmin).1 * (pow2Frac (exp - 2)).2), kmin)
  | i + 1 =>
    match shortestAt mant exp (kmin + (i + 1 : Nat)) with
    | some c => (c, kmin + (i + 1 : Nat))
    | none => shortestFrom mant exp kmin i

/-- The shortest digits that read back as `mant * 2^exp`, with the position `dp`
of the decimal point (the value is `0.d1d2... * 10^dp`); zero has no digits. -/
def shortest (mant : Nat) (exp : Int) : List Char × Int :=
  if mant = 0 then ([], 0) else
  let kmin : Int := min exp 0
  let top := (Nat.toDigits 10
    ((4 * mant + 2) * (pow2Frac (exp - 2)).1 / (pow2Frac (exp - 2)).2 + 1)).length
  let r := shortestFrom mant exp kmin (top + kmin.natAbs)
  let ds := Nat.toDigits 10 r.1
  (ds, (ds.length : Int) + r.2)

/-- Go strconv format `f` with the precision of the shortest digits. -/
def fmtF (neg : Bool) (ds : List Char) (dp : Int) : List Char :=
  let whole := if 0 < dp then
      ds.take dp.toNat ++ List.replicate (dp.toNat - ds.length) (Char.ofNat 48)
    else [Char.ofNat 48]
  let frac := if 0 < dp then ds.drop dp.toNat
    else List.replicate dp.natAbs (Char.ofNat 48) ++ ds
  (if neg then [Char.ofNat 45] else []) ++ whole ++
    (if frac.isEmpty then [] else Char.ofNat 46 :: frac)

/-- Go strconv format `e` with the precision of the shortest digits: one digit,
the others after a point, then the exponent with a sign and at least two
digits (two below 100, three below 1000; the decimal exponent of a float64 is
below 400, and a larger one is written out in full). -/
def fmtE (neg : Bool) (ds : List Char) (dp : Int) : List Char :=
  let first := ds.headD (Char.ofNat 48)
  let more := if ds.tail.isEmpty then [] else Char.ofNat 46 :: ds.tail
  let exp : Int := if ds.isEmpty then 0 else dp - 1
  let n := exp.natAbs
  let digits := if n < 10 then [Char.ofNat 48, Nat.digitChar n]
    else if n < 100 then [Nat.digitChar (n / 10), Nat.digitChar (n % 10)]
    else if n < 1000 then
      [Nat.digitChar (n / 100), Nat.digitChar (n / 10 % 10), Nat.digitChar (n % 10)]
    else Nat.toDigits 10 n
  (if neg then [Char.ofNat 45] else []) ++ first :: more ++
    Char.ofNat 101 :: (if exp < 0 then Char.ofNat 45 else Char.ofNat 43) :: digits

/-- The clean-up of package json after format `e`: `e-09` becomes `e-9`. -/
def cleanExponent (b : List Char) : List Char :=
  match b.reverse with
  | last :: z :: sgn :: e :: rest =>
    if e = Char.ofNat 101 ∧ (sgn = Char.ofNat 45 ∨ sgn = Char.ofNat 43) ∧ z = Char.ofNat 48 then
      (last :: sgn :: e :: rest).reverse
    else b
  | _ => b

/-- Halve an even significand while it has more than 53 bits or the exponent is
below the least one, at most `fuel` times. -/
def normDown : Nat → Nat → Int → Nat × Int
  | 0, mant, exp => (mant, exp)
  | fuel + 1, mant, exp =>
    if mant % 2 = 0 ∧ (2 ^ 53 ≤ mant ∨ exp < -1074) then normDown fuel (mant / 2) (exp + 1)
    else (mant, exp)

/-- Double a significand below `2^52` while the exponent is above the least one,
at most `fuel` times. -/
def normUp : Nat → Nat → Int → Nat × Int
  | 0, mant, exp => (mant, exp)
  | fuel + 1, mant, exp =>
    if mant < 2 ^ 52 ∧ -1074 < exp then normUp fuel (2 * mant) (exp - 1)
    else (mant, exp)

/-- The IEEE encoding of the value `mant * 2^exp`: the significand and exponent
the float64 of that value carries (`2^52 ≤ mant < 2^53`, or a smaller `mant` at
the least exponent `-1074`).  The shortest digits depend on the neighbours of a
float64, hence on this encoding and not on how the value was written. -/
def canonical (mant : Nat) (exp : Int) : Nat × Int :=
  if mant = 0 then (0, -1074)
  else
    let d := normDown mant mant exp
    normUp 52 d.1 d.2

/-- The float encoder of package json for a finite float64 given by its IEEE
significand and exponent: the shortest digits, in format `e` when the magnitude
is nonzero and below `1e-6` (the float64 nearest to it) or at least `1e21`, and
in format `f` otherwise. -/
def encodeFinite (neg : Bool) (mant : Nat) (exp : Int) : String :=
  let num := mant * (pow2Frac exp).1
  let den := (pow2Frac exp).2
  let d := shortest mant exp
  if mant ≠ 0 ∧ (num * 2 ^ 72 < 4722366482869645 * den ∨ 10 ^ 21 * den ≤ num) then
    String.mk (cleanExponent (fmtE neg d.1 d.2))
  else
    String.mk (fmtF neg d.1 d.2)

/-- The float encoder of package json for a float64: an error for NaN and the
infinities, else the text of the finite value. -/
def jsonFloat : Float64 → Except String String
  | .nan => .error "json: unsupported value: NaN"
  | .inf false => .error "json: unsupported value: +Inf"
  | .inf true => .error "json: unsupported value: -Inf"
  | .finite neg mant exp =>
    .ok (encodeFinite neg (canonical mant exp).1 (canonical mant exp).2)

/-- Go `json.Marshal` of a `*Geometry`: the fields in declaration order under
their tags, the integers in decimal. -/
def jsonMarshalGeometry (g : Geometry) : Except String String :=
  match jsonFloat g.X with
  | .error err => .error err
  | .ok x =>
    match jsonFloat g.Y with
    | .error err => .error err
    | .ok y =>
      .ok ("\x7b\"spatialReference\":\x7b\"latestWkid\":" ++ toString g.SpatialReference.LatestWKID ++
        ",\"wkid\":" ++ toString g.SpatialReference.WKID ++ "\x7d,\"x\":" ++ x ++
        ",\"y\":" ++ y ++ "\x7d")

/-! ## Package url: `Values`, `QueryEscape`, `URL.String` -/

/-- Go `url.URL`, the fields the program touches. -/
structure URL where
  Scheme : String
  Host : String
  Path : String
  RawQuery : String
deriving DecidableEq

/-- Go `url.Values`, a map from a key to its list of values, kept as a list of
entries with distinct keys. -/
structure Values where
  entries : List (String × List String)
deriving DecidableEq

/-- Go `func (v Values) Add(key, value string)`: append the value to the list
of the key. -/
def Values.Add (v : Values) (key value : String) : Values :=
  let rec go : List (String × List String) → List (String × List String)
    | [] => [(key, [value])]
    | (k, vs) :: rest => if k = key then (k, vs ++ [value]) :: rest else (k, vs) :: go rest
  ⟨go v.entries⟩

/-- The map lookup `v[key]`: the values of a key, none for an absent key. -/
def Values.lookup (v : Values) (key : String) : List String :=
  match v.entries.find? (fun kv => kv.1 == key) with
  | some kv => kv.2
  | none => []

/-- The keys of the map. -/
def Values.keys (v : Values) : List String :=
  v.entries.map (fun kv => kv.1)

/-- The upper-case hexadecimal digit of a nibble. -/
def upperhex (n : Nat) : Char :=
  if n < 10 then Char.ofNat (48 + n) else Char.ofNat (55 + n)

/-- One byte under `QueryEscape`: letters, digits and `-`, `_`, `.`, `~` are
kept, a space becomes `+`, every other byte becomes `%XX`. -/
def escapeByte (b : Nat) : List Char :=
  if (97 ≤ b ∧ b ≤ 122) ∨ (65 ≤ b ∧ b ≤ 90) ∨ (48 ≤ b ∧ b ≤ 57) ∨
      b = 45 ∨ b = 95 ∨ b = 46 ∨ b = 126 then [Char.ofNat b]
  else if b = 32 then [Char.ofNat 43]
  else [Char.ofNat 37, upperhex (b / 16), upperhex (b % 16)]

/-- Go `url.QueryEscape`, over the UTF-8 bytes of the string. -/
def QueryEscape (s : String) : String :=
  String.mk (s.data.flatMap fun c => (String.utf8EncodeChar c).flatMap fun b => escapeByte b.toNat)

/-- The order of Go strings, lexicographic in the characters. -/
def stringLess : List Char → List Char → Bool
  | _, [] => false
  | [], _ :: _ => true
  | a :: as, b :: bs =>
    decide (a.toNat < b.toNat) || (decide (a.toNat = b.toNat) && stringLess as bs)

/-- Insertion of a key into a sorted list of keys. -/
def insertKey (k : String) : List String → List String
  | [] => [k]
  | x :: xs => if stringLess k.data x.data then k :: x :: xs else x :: insertKey k xs

/-- The keys in ascending order, as `slices.Sort` leaves them. -/
def sortKeys : List String → List String
  | [] => []
  | k :: ks => insertKey k (sortKeys ks)

/-- Go `func (v Values) Encode() string`: `key=value` pairs, both escaped,
joined by `&`, the keys in sorted order. -/
def Values.Encode (v : Values) : String :=
  "&".intercalate ((sortKeys v.keys).flatMap fun k =>
    (v.lookup k).map fun x => QueryEscape k ++ "=" ++ QueryEscape x)

/-- Go `func (u *URL) String() string` for a URL with a scheme, a host and a
path that needs no escaping: `scheme://host/path?query`. -/
def URL.String (u : URL) : String :=
  u.Scheme ++ ":" ++ "//" ++ u.Host ++ u.Path ++
    (if u.RawQuery = "" then "" else "?" ++ u.RawQuery)

/-- Go `func (u *URL) Query() Values`: the parsed `RawQuery`, which is empty
for the URL the program parses. -/
def URL.Query (_u : URL) : Values := ⟨[]⟩

/-- The endpoint literal handed to `url.Parse`. -/
def arcgisEndpoint : String :=
  "https://services.arcgis.com/XG15cJAlne2vxtgt/arcgis/rest/services/National_Risk_Index_Counties/FeatureServer/0/query"

/-- Go `url.Parse` on the endpoint literal: it succeeds with this URL. -/
def urlParseEndpoint : Except String URL :=
  .ok { Scheme := "https", Host := "services.arcgis.com",
        Path := "/XG15cJAlne2vxtgt/arcgis/rest/services/National_Risk_Index_Counties/FeatureServer/0/query",
        RawQuery := "" }

/-! ## The world outside the repository and the effects of the program -/

/-- Go `geocoder.Address`, the fields the program sets. -/
structure Address where
  Street : String
  Number : Int
  City : String
  State : String
  Country : String
deriving DecidableEq

/-- Go `geocoder.Location`. -/
structure Location where
  Latitude : Float64
  Longitude : Float64
deriving DecidableEq

/-- An HTTP response: what `ioutil.ReadAll(resp.Body)` yields, the bytes of the
body or a read error. -/
structure Response where
  Body : Except String String

/-- Everything the program depends on and does not own: the value of the
`--apiKey` flag after `flag.Parse`, the geocoding provider (called with the
key and an address), the HTTP transport (called with a URL) and
`json.Unmarshal` into a `Result`. -/
structure World where
  apiKey : String
  Geocoding : String → Address → Except String Location
  httpGet : String → Except String Response
  jsonUnmarshal : String → Except String Result

/-- An outbound network call. -/
inductive NetCall where
  | geocoding (apiKey : String) (address : Address)
  | httpGet (url : String)
deriving DecidableEq

/-- What the process has done so far: the bytes written to standard output,
the bytes written to standard error, the network calls issued, in order. -/
structure Effects where
  stdout : String
  stderr : String
  calls : List NetCall
deriving DecidableEq

/-- Go `fmt.Println` of string operands: written to standard output. -/
def Println (s : Effects) (operands : List String) : Effects :=
  { s with stdout := s.stdout ++ Sprintln operands }

/-- The float64 of the literal `-11677620.771308051`. -/
def dummyX : Float64 := .finite true 6269374913482297 (-29)

/-- The float64 of the literal `4854685.755719238`. -/
def dummyY : Float64 := .finite false 5212679138292793 (-30)

/-! ## The functions of `main.go` -/

/-- Go `func esriGeometryPointForAddress() (x, y float64, _ error)`. -/
def esriGeometryPointForAddress (w : World) (s : Effects) :
    (Float64 × Float64 × Option String) × Effects :=
  let address : Address :=
    { Street := "Central Park West", Number := 115, City := "New York",
      State := "New York", Country := "United States" }
  let geocoderApiKey := w.apiKey
  let s := { s with calls := s.calls ++ [NetCall.geocoding geocoderApiKey address] }
  match w.Geocoding geocoderApiKey address with
  | .error err =>
    ((Float64.zero, Float64.zero, some ("failed to get coords from google maps: " ++ err)), s)
  | .ok _location =>
    ((dummyX, dummyY, none), s)

/-- Go `func run() error`. -/
def run (w : World) (s : Effects) : Option String × Effects :=
  match esriGeometryPointForAddress w s with
  | ((_, _, some err), s) => (some ("error getting geometry for address: " ++ err), s)
  | ((x, y, none), s) =>
    let g : Geometry :=
      { SpatialReference := { LatestWKID := 3857, WKID := 102100 }, X := x, Y := y }
    match jsonMarshalGeometry g with
    | .error err => (some ("error marshaling Geometry: " ++ err), s)
    | .ok gBytes =>
      match urlParseEndpoint with
      | .error err => (some ("error parsing arcgis url: " ++ err), s)
      | .ok u =>
        let v := u.Query
        let v := v.Add "geometry" gBytes
        let v := v.Add "f" "json"
        let v := v.Add "outFields" "*"
        let v := v.Add "spatialRel" "esriSpatialRelIntersects"
        let v := v.Add "where" "1=1"
        let v := v.Add "geometryType" "esriGeometryPoint"
        let v := v.Add "inSR" "102100"
        let v := v.Add "outSR" "102100"
        let u := { u with RawQuery := v.Encode }
        let s := { s with calls := s.calls ++ [NetCall.httpGet u.String] }
        match w.httpGet u.String with
        | .error err => (some ("error querying arcgis: " ++ err), s)
        | .ok resp =>
          match resp.Body with
          | .error err => (some ("error reading arcgis response: " ++ err), s)
          | .ok outBytes =>
            match w.jsonUnmarshal outBytes with
            | .error err => (some ("error unmarshaling response: " ++ err), s)
            | .ok res =>
              if h : res.Features.length ≠ 1 then
                (some ("expected 1 Features, but got " ++ toString res.Features.length), s)
              else
                let s := Println s ["Here's some risk information about your home:"]
                let s := Println s [(res.Features.get ⟨0, by omega⟩).Attritubes.String]
                (none, s)

/-- Go `func main()`: the exit status of the process and its effects. -/
def main (w : World) : Nat × Effects :=
  let s : Effects := { stdout := "", stderr := "", calls := [] }
  if w.apiKey = "" then
    (1, Println s ["please provide a value for all --apiKey"])
  else
    match run w s with
    | (some err, s) => (1, Println s [err])
    | (none, s) => (0, s)

/-! ## Names for what `run` builds -/

/-- The address literal of `esriGeometryPointForAddress`. -/
def queriedAddress : Address :=
  { Street := "Central Park West", Number := 115, City := "New York",
    State := "New York", Country := "United States" }

/-- The geometry value built at the top of `run` from a coordinate. -/
def geometryFor (x y : Float64) : Geometry :=
  { SpatialReference := { LatestWKID := 3857, WKID := 102100 }, X := x, Y := y }

/-- The geometry text the specification gives for the fixed coordinate. -/
def geometryLiteral : String :=
  "\x7b\"spatialReference\":\x7b\"latestWkid\":3857,\"wkid\":102100\x7d,\"x\":-11677620.771308051,\"y\":4854685.755719238\x7d"

/-- The query values after the eight `v.Add` calls of `run`. -/
def queryValues (gBytes : String) : Values :=
  let v : Values := ⟨[]⟩
  let v := v.Add "geometry" gBytes
  let v := v.Add "f" "json"
  let v := v.Add "outFields" "*"
  let v := v.Add "spatialRel" "esriSpatialRelIntersects"
  let v := v.Add "where" "1=1"
  let v := v.Add "geometryType" "esriGeometryPoint"
  let v := v.Add "inSR" "102100"
  let v := v.Add "outSR" "102100"
  v

/-- The URL text of the request for the fixed coordinate. -/
def requestURL : String :=
  "https://services.arcgis.com/XG15cJAlne2vxtgt/arcgis/rest/services/National_Risk_Index_Counties/FeatureServer/0/query?f=json&geometry=%7B%22spatialReference%22%3A%7B%22latestWkid%22%3A3857%2C%22wkid%22%3A102100%7D%2C%22x%22%3A-11677620.771308051%2C%22y%22%3A4854685.755719238%7D&geometryType=esriGeometryPoint&inSR=102100&outFields=%2A&outSR=102100&spatialRel=esriSpatialRelIntersects&where=1%3D1"

/-- The preamble line of a successful run. -/
def preamble : String := "Here's some risk information about your home:\n"

/-- The effects of a process that has done nothing yet. -/
def Effects.initial : Effects := { stdout := "", stderr := "", calls := [] }

/-- The text has exactly two digits after its decimal point: it ends in a point
and two decimal digits, and there is no other point in it. -/
def twoDecimals (t : String) : Bool :=
  match t.data.reverse with
  | d2 :: d1 :: p :: rest =>
    p == Char.ofNat 46 && d1.isDigit && d2.isDigit && !rest.isEmpty &&
      rest.all (fun c => c != Char.ofNat 46)
  | _ => false

/-- The four numeric scores of a record. -/
def scoresOf (a : Attributes) : List Float64 :=
  [a.RiskScore, a.DroughtRiskScore, a.EarthquakeRiskScore, a.TornadoRiskScore]

/-- The ten labelled entries of a record, in the order of `Attributes.String`. -/
def entriesOf (a : Attributes) : List (String × String) :=
  [("State", a.State), ("County", a.County),
   ("RiskScore", formatFloat2 a.RiskScore), ("RiskRating", a.RiskRating),
   ("DroughtRiskScore", formatFloat2 a.DroughtRiskScore),
   ("DroughtRiskRating", a.DroughtRiskRating),
   ("EarthquakeRiskScore", formatFloat2 a.EarthquakeRiskScore),
   ("EarthquakeRiskRating", a.EarthquakeRiskRating),
   ("TornadoRiskScore", formatFloat2 a.TornadoRiskScore),
   ("TornadoRiskRating", a.TornadoRiskRating)]

/-- The record of the formatter example of the specification. -/
def exampleAttributes : Attributes :=
  { State := "New York", County := "New York",
    RiskScore := .finite false 6949617174986097 (-49), RiskRating := "Relatively Low",
    DroughtRiskScore := .finite false 4503599627370496 (-52), DroughtRiskRating := "Very Low",
    EarthquakeRiskScore := .finite false 5629499534213120 (-51), EarthquakeRiskRating := "Low",
    TornadoRiskScore := Float64.zero, TornadoRiskRating := "Very Low" }

/-- The magnitude of a finite float64 as a rational number. -/
def Float64.magnitude : Float64 → ℚ
  | .finite _ m e => (m : ℚ) * (2 : ℚ) ^ e
  | _ => 0

/-! ## Concrete worlds and records -/

/-- A world that answers every call the same way: the flag value `key`, the
geocoder outcome `geo`, a transport that returns the body `"body"`, and the
decoder outcome `res`. -/
def constWorld (key : String) (geo : Except String Location) (res : Except String Result) :
    World :=
  { apiKey := key, Geocoding := fun _ _ => geo,
    httpGet := fun _ => .ok { Body := .ok "body" }, jsonUnmarshal := fun _ => res }

/-- A location a geocoder may answer with. -/
def someLocation : Location := { Latitude := Float64.zero, Longitude := Float64.zero }

/-- The example record with a NaN overall score. -/
def nanAttributes : Attributes := { exampleAttributes with RiskScore := Float64.nan }

/-- The eight query parameters of the request, each with its single value. -/
def expectedParameters (gBytes : String) : List (String × List String) :=
  [("geometry", [gBytes]), ("f", ["json"]), ("outFields", ["*"]),
   ("spatialRel", ["esriSpatialRelIntersects"]), ("where", ["1=1"]),
   ("geometryType", ["esriGeometryPoint"]), ("inSR", ["102100"]), ("outSR", ["102100"])]

/-! ## Reading a JSON number back -/

/-- The sign bit of a float64. -/
def Float64.signbit : Float64 → Bool
  | .finite neg _ _ => neg
  | .inf neg => neg
  | .nan => false

/-- The value is a finite float64 in its IEEE encoding: a significand below
`2^53` with an exponent from `-1074` to `971`, the significand at least `2^52`
unless the exponent is the least one. -/
def Float64.isIEEE : Float64 → Bool
  | .finite _ mant exp =>
    decide (mant < 2 ^ 53 ∧ -1074 ≤ exp ∧ exp ≤ 971 ∧ (2 ^ 52 ≤ mant ∨ exp = -1074))
  | _ => false

/-- The number a run of decimal digits denotes. -/
def digitsVal (ds : List Char) : Nat :=
  ds.foldl (fun a c => 10 * a + (c.toNat - 48)) 0

/-- The exponent part of a JSON number: nothing, or `e`, a sign and digits. -/
def exponentValue : List Char → Option Int
  | [] => some 0
  | c :: sgn :: ds =>
    if c = Char.ofNat 101 ∧ ds ≠ [] ∧ ds.all Char.isDigit = true then
      if sgn = Char.ofNat 43 then some (digitsVal ds : Int)
      else if sgn = Char.ofNat 45 then some (-(digitsVal ds : Int))
      else none
    else none
  | _ => none

/-- The magnitude an unsigned JSON number denotes: digits, an optional point
with more digits, an optional exponent. -/
def magnitudeValue (t : List Char) : Option ℚ :=
  let whole := t.takeWhile Char.isDigit
  let rest := t.dropWhile Char.isDigit
  let frac := match rest with
    | c :: r => if c = Char.ofNat 46 then r.takeWhile Char.isDigit else []
    | [] => []
  let tail := match rest with
    | c :: r => if c = Char.ofNat 46 then r.dropWhile Char.isDigit else rest
    | [] => []
  if whole = [] then none
  else
    match exponentValue tail with
    | none => none
    | some x =>
      some (((digitsVal whole : ℚ) + (digitsVal frac : ℚ) / (10 : ℚ) ^ frac.length) * (10 : ℚ) ^ x)

/-- The sign and the magnitude a JSON number denotes; none for a text that is
not a number. -/
def numberValue (t : String) : Option (Bool × ℚ) :=
  match t.data with
  | [] => none
  | c :: r =>
    if c = Char.ofNat 45 then (magnitudeValue r).map (fun q => (true, q))
    else (magnitudeValue (c :: r)).map (fun q => (false, q))

/-- The rational `q` rounds to the float64 `mant * 2^exp` (IEEE encoding) under
round-to-nearest, ties to even: it lies between the midpoint to the float below
and the midpoint to the float above, a midpoint counting when `mant` is even.
The float below is half as far away when `mant` is the least significand of its
exponent. -/
def roundsTo (mant : Nat) (exp : Int) (q : ℚ) : Prop :=
  let upper : ℚ := (2 * (mant : ℚ) + 1) * (2 : ℚ) ^ (exp - 1)
  let lower : ℚ :=
    if 2 ^ 52 < mant ∨ exp = -1074 then (2 * (mant : ℚ) - 1) * (2 : ℚ) ^ (exp - 1)
    else (4 * (mant : ℚ) - 1) * (2 : ℚ) ^ (exp - 2)
  if mant % 2 = 0 then lower ≤ q ∧ q ≤ upper else lower < q ∧ q < upper

/-- A JSON number text reads back as the float64: it denotes the sign of the
float64 and a magnitude that rounds to it. -/
def readsBackAs (t : String) (x : Float64) : Prop :=
  match x with
  | .finite neg mant exp => ∃ q : ℚ, numberValue t = some (neg, q) ∧ roundsTo mant exp q
  | _ => False

/-- The query client inside `run`: everything `run` does with the coordinate
`(x, y)` once the resolver has returned it (from the `Geometry` literal to the
end of the function). -/
def queryClient (w : World) (x y : Float64) (s : Effects) : Option String × Effects :=
  let g : Geometry :=
    { SpatialReference := { LatestWKID := 3857, WKID := 102100 }, X := x, Y := y }
  match jsonMarshalGeometry g with
  | .error err => (some ("error marshaling Geometry: " ++ err), s)
  | .ok gBytes =>
    match urlParseEndpoint with
    | .error err => (some ("error parsing arcgis url: " ++ err), s)
    | .ok u =>
      let v := u.Query
      let v := v.Add "geometry" gBytes
      let v := v.Add "f" "json"
      let v := v.Add "outFields" "*"
      let v := v.Add "spatialRel" "esriSpatialRelIntersects"
      let v := v.Add "where" "1=1"
      let v := v.Add "geometryType" "esriGeometryPoint"
      let v := v.Add "inSR" "102100"
      let v := v.Add "outSR" "102100"
      let u := { u with RawQuery := v.Encode }
      let s := { s with calls := s.calls ++ [NetCall.httpGet u.String] }
      match w.httpGet u.String with
      | .error err => (some ("error querying arcgis: " ++ err), s)
      | .ok resp =>
        match resp.Body with
        | .error err => (some ("error reading arcgis response: " ++ err), s)
        | .ok outBytes =>
          match w.jsonUnmarshal outBytes with
          | .error err => (some ("error unmarshaling response: " ++ err), s)
          | .ok res =>
            if h : res.Features.length ≠ 1 then
              (some ("expected 1 Features, but got " ++ toString res.Features.length), s)
            else
              let s := Println s ["Here's some risk information about your home:"]
              let s := Println s [(res.Features.get ⟨0, by omega⟩).Attritubes.String]
              (none, s)

/-- The geometry text for the number texts `xs` and `ys`. -/
def geometryText (xs ys : String) : String :=
  "\x7b\"spatialReference\":\x7b\"latestWkid\":3857,\"wkid\":102100\x7d,\"x\":" ++ xs ++
    ",\"y\":" ++ ys ++ "\x7d"

/-! # Theorems -/

set_option exponentiation.threshold 2000

set_option maxRecDepth 100000


/-! ## Evaluating the fixed parts of `run` -/

theorem jsonMarshalGeometry_dummy :
    jsonMarshalGeometry
      { SpatialReference := { LatestWKID := 3857, WKID := 102100 }, X := dummyX, Y := dummyY } =
      .ok geometryLiteral := by rfl

theorem requestURL_eq :
    URL.String
      { Scheme := "https", Host := "services.arcgis.com",
        Path := "/XG15cJAlne2vxtgt/arcgis/rest/services/National_Risk_Index_Counties/FeatureServer/0/query",
        RawQuery := (((((((((Values.mk []).Add "geometry" geometryLiteral).Add "f" "json").Add
          "outFields" "*").Add "spatialRel" "esriSpatialRelIntersects").Add "where" "1=1").Add
          "geometryType" "esriGeometryPoint").Add "inSR" "102100").Add "outSR" "102100").Encode } =
      requestURL := by decide

/-- The call record after the geocoding call. -/
theorem esri_effects (w : World) (s : Effects) :
    (esriGeometryPointForAddress w s).2 =
      { s with calls := s.calls ++ [NetCall.geocoding w.apiKey queriedAddress] } := by
  unfold esriGeometryPointForAddress
  cases h : w.Geocoding w.apiKey queriedAddress <;> simp_all [queriedAddress]

theorem run_geocoding_error (w : World) (s : Effects) (e : String)
    (h : w.Geocoding w.apiKey queriedAddress = .error e) :
    run w s = (some ("error getting geometry for address: " ++
        ("failed to get coords from google maps: " ++ e)),
      { s with calls := s.calls ++ [NetCall.geocoding w.apiKey queriedAddress] }) := by
  unfold run esriGeometryPointForAddress
  simp only [queriedAddress] at h
  simp only [h]
  rfl

theorem run_after_geocoding (w : World) (s : Effects) (loc : Location)
    (h : w.Geocoding w.apiKey queriedAddress = .ok loc) :
    run w s =
      (let s1 : Effects :=
        { s with calls := s.calls ++ [NetCall.geocoding w.apiKey queriedAddress,
                                       NetCall.httpGet requestURL] }
       match w.httpGet requestURL with
        | .error err => (some ("error querying arcgis: " ++ err), s1)
        | .ok resp =>
          match resp.Body with
          | .error err => (some ("error reading arcgis response: " ++ err), s1)
          | .ok outBytes =>
            match w.jsonUnmarshal outBytes with
            | .error err => (some ("error unmarshaling response: " ++ err), s1)
            | .ok res =>
              match res.Features with
              | [f] => (none, Println (Println s1 ["Here's some risk information about your home:"])
                  [f.Attritubes.String])
              | _ => (some ("expected 1 Features, but got " ++ toString res.Features.length), s1)) := by
  unfold run esriGeometryPointForAddress
  simp only [queriedAddress] at h
  simp only [h, jsonMarshalGeometry_dummy, urlParseEndpoint, URL.Query, requestURL_eq,
    List.append_assoc, List.singleton_append, List.nil_append, List.cons_append]
  cases w.httpGet requestURL with
  | error err => rfl
  | ok resp =>
    obtain ⟨body⟩ := resp
    cases body with
    | error err => rfl
    | ok outBytes =>
      dsimp only
      cases w.jsonUnmarshal outBytes with
      | error err => rfl
      | ok res =>
        obtain ⟨fs⟩ := res
        rcases fs with _ | ⟨f, _ | ⟨g, t⟩⟩
        · simp [queriedAddress]
        · simp [queriedAddress]
        · simp [queriedAddress]

/-! ## Decimal digits -/

theorem digitChar_isDigit (k : Nat) (h : k < 10) : (Nat.digitChar k).isDigit = true := by
  interval_cases k <;> decide

theorem toDigitsCore_isDigit (fuel : Nat) : ∀ (n : Nat) (acc : List Char),
    (∀ c ∈ acc, c.isDigit = true) → ∀ c ∈ Nat.toDigitsCore 10 fuel n acc, c.isDigit = true := by
  induction fuel with
  | zero => intro n acc h; simpa [Nat.toDigitsCore] using h
  | succ fuel ih =>
    intro n acc h
    have hd : (Nat.digitChar (n % 10)).isDigit = true :=
      digitChar_isDigit _ (Nat.mod_lt _ (by decide))
    have hacc : ∀ c ∈ Nat.digitChar (n % 10) :: acc, c.isDigit = true := by
      intro c hc
      rcases List.mem_cons.1 hc with rfl | hc
      · exact hd
      · exact h c hc
    rw [Nat.toDigitsCore]
    split
    · exact hacc
    · exact ih _ _ hacc

theorem toString_nat_isDigit (n : Nat) : ∀ c ∈ (toString n).data, c.isDigit = true := by
  have : (toString n).data = Nat.toDigits 10 n := rfl
  rw [this]
  exact toDigitsCore_isDigit _ _ _ (by simp)

theorem toString_nat_ne_nil (n : Nat) : (toString n).data ≠ [] := by
  have : (toString n).data = Nat.toDigits 10 n := rfl
  rw [this]
  unfold Nat.toDigits
  rw [Nat.toDigitsCore]
  split
  · simp
  · intro h
    have hlen : ∀ (fuel m : Nat) (acc : List Char),
        acc.length ≤ (Nat.toDigitsCore 10 fuel m acc).length := by
      intro fuel
      induction fuel with
      | zero => intro m acc; simp [Nat.toDigitsCore]
      | succ fuel ih =>
        intro m acc
        rw [Nat.toDigitsCore]
        split
        · simp
        · exact le_trans (by simp) (ih _ _)
    have := hlen n (n / 10) [Nat.digitChar (n % 10)]
    rw [h] at this
    simp at this

/-- The text of a number of hundredths has exactly two digits after the point. -/
theorem twoDecimals_fixed2 (neg : Bool) (n : Nat) : twoDecimals (fixed2 neg n) = true := by
  have hdata : (fixed2 neg n).data =
      ((if neg then "-" else "").data ++ (toString (n / 100)).data) ++
        [Char.ofNat 46, Nat.digitChar (n / 10 % 10), Nat.digitChar (n % 10)] := by
    simp [fixed2, String.data_append]
  have h1 := digitChar_isDigit (n / 10 % 10) (Nat.mod_lt _ (by decide))
  have h2 := digitChar_isDigit (n % 10) (Nat.mod_lt _ (by decide))
  have hne := toString_nat_ne_nil (n / 100)
  have hdig := toString_nat_isDigit (n / 100)
  unfold twoDecimals
  rw [hdata]
  simp only [List.reverse_append, List.reverse_cons, List.reverse_nil, List.nil_append,
    List.cons_append, List.singleton_append]
  simp only [h1, h2, beq_self_eq_true, Bool.and_true, Bool.true_and, Bool.and_eq_true,
    Bool.not_eq_true', List.isEmpty_eq_false, List.all_eq_true, List.mem_append,
    List.mem_reverse, bne_iff_ne, ne_eq]
  refine ⟨?_, ?_⟩
  · intro h
    simp at h
    exact hne h.1
  · intro c hc
    rcases hc with hc | hc
    · intro hc46
      have := hdig c hc
      rw [hc46] at this
      exact absurd this (by decide)
    · cases neg
      · simp at hc
      · have : c = Char.ofNat 45 := by simpa using hc
        rw [this]
        decide

/-! ## Rounding to hundredths -/

theorem pow2Frac_pos (e : Int) : 0 < (pow2Frac e).2 := by
  cases e <;> simp [pow2Frac]

theorem pow2Frac_val (e : Int) : ((pow2Frac e).1 : ℚ) / ((pow2Frac e).2 : ℚ) = (2 : ℚ) ^ e := by
  cases e with
  | ofNat k => simp [pow2Frac]
  | negSucc k => simp [pow2Frac, zpow_negSucc]

theorem roundHalfEven_near (num den : Nat) (hden : 0 < den) :
    |(roundHalfEven num den : ℚ) - (num : ℚ) / (den : ℚ)| ≤ 1 / 2 := by
  have hd : (0 : ℚ) < (den : ℚ) := by exact_mod_cast hden
  have hsplit : (num : ℚ) = (den : ℚ) * ((num / den : Nat) : ℚ) + ((num % den : Nat) : ℚ) := by
    exact_mod_cast (Nat.div_add_mod num den).symm
  have hr : ((num % den : Nat) : ℚ) < (den : ℚ) := by exact_mod_cast Nat.mod_lt num hden
  have hr0 : (0 : ℚ) ≤ ((num % den : Nat) : ℚ) := by positivity
  have key : ∀ N : ℚ, |N * den - num| * 2 ≤ den → |N - (num : ℚ) / den| ≤ 1 / 2 := by
    intro N h
    have : N - (num : ℚ) / den = (N * den - num) / den := by field_simp
    rw [this, abs_div, abs_of_pos hd, div_le_iff₀ hd]
    linarith
  apply key
  unfold roundHalfEven
  simp only
  have hdown : |((num / den : Nat) : ℚ) * den - num| = ((num % den : Nat) : ℚ) := by
    have : ((num / den : Nat) : ℚ) * den - num = -((num % den : Nat) : ℚ) := by
      rw [hsplit]; ring
    rw [this, abs_neg, abs_of_nonneg hr0]
  have hup : |(((num / den : Nat) : ℚ) + 1) * den - num| = (den : ℚ) - ((num % den : Nat) : ℚ) := by
    have : (((num / den : Nat) : ℚ) + 1) * den - num = (den : ℚ) - ((num % den : Nat) : ℚ) := by
      rw [hsplit]; ring
    rw [this, abs_of_nonneg (by linarith)]
  split_ifs with h1 h2 h3
  · have h1q : 2 * ((num % den : Nat) : ℚ) < den := by exact_mod_cast h1
    rw [hdown]; linarith
  · have h2q : (den : ℚ) < 2 * ((num % den : Nat) : ℚ) := by exact_mod_cast h2
    push_cast
    rw [hup]; linarith
  · have h2q : 2 * ((num % den : Nat) : ℚ) ≤ den := by exact_mod_cast Nat.le_of_not_lt h2
    rw [hdown]; linarith
  · have h1q : (den : ℚ) ≤ 2 * ((num % den : Nat) : ℚ) := by exact_mod_cast Nat.le_of_not_lt h1
    push_cast
    rw [hup]; linarith

/-- The hundredths kept by `%.2f` are within half a hundredth of the magnitude. -/
theorem hundredths_near (m : Nat) (e : Int) :
    |(hundredths m e : ℚ) / 100 - (m : ℚ) * (2 : ℚ) ^ e| ≤ 1 / 200 := by
  have h := roundHalfEven_near (100 * m * (pow2Frac e).1) (pow2Frac e).2 (pow2Frac_pos e)
  have hp := pow2Frac_val e
  have hd : (0 : ℚ) < ((pow2Frac e).2 : ℚ) := by exact_mod_cast pow2Frac_pos e
  have hv : ((100 * m * (pow2Frac e).1 : Nat) : ℚ) / ((pow2Frac e).2 : ℚ) =
      100 * ((m : ℚ) * (2 : ℚ) ^ e) := by
    rw [← hp]; push_cast; field_simp; ring
  rw [hv] at h
  unfold hundredths
  rw [abs_le] at h ⊢
  constructor <;> linarith [h.1, h.2]

/-! ## Runs of decimal digits -/

theorem digitChar_val (k : Nat) (h : k < 10) : (Nat.digitChar k).toNat - 48 = k := by
  interval_cases k <;> decide

theorem digitsVal_foldl (ds : List Char) (a : Nat) :
    ds.foldl (fun a c => 10 * a + (c.toNat - 48)) a = a * 10 ^ ds.length + digitsVal ds := by
  induction ds generalizing a with
  | nil => simp [digitsVal]
  | cons c cs ih =>
    simp only [List.foldl_cons, digitsVal, List.length_cons]
    rw [ih, ih (10 * 0 + (c.toNat - 48))]
    ring

theorem digitsVal_nil : digitsVal [] = 0 := rfl

theorem digitsVal_append (a b : List Char) :
    digitsVal (a ++ b) = digitsVal a * 10 ^ b.length + digitsVal b := by
  unfold digitsVal
  rw [List.foldl_append, digitsVal_foldl]
  rfl

theorem digitsVal_cons (c : Char) (cs : List Char) :
    digitsVal (c :: cs) = (c.toNat - 48) * 10 ^ cs.length + digitsVal cs := by
  have := digitsVal_append [c] cs
  simpa [digitsVal] using this

theorem digitsVal_zeros (k : Nat) : digitsVal (List.replicate k (Char.ofNat 48)) = 0 := by
  induction k with
  | zero => rfl
  | succ k ih =>
    rw [List.replicate_succ, digitsVal_cons, ih]
    have : (Char.ofNat 48).toNat - 48 = 0 := by decide
    rw [this]; simp

theorem zeros_isDigit (k : Nat) : ∀ c ∈ List.replicate k (Char.ofNat 48), c.isDigit = true := by
  intro c hc
  rw [List.eq_of_mem_replicate hc]
  decide

theorem toDigitsCore_val (fuel n : Nat) (acc : List Char) (h : n < fuel) :
    digitsVal (Nat.toDigitsCore 10 fuel n acc) = n * 10 ^ acc.length + digitsVal acc := by
  induction fuel generalizing n acc with
  | zero => omega
  | succ fuel ih =>
    have hd : (Nat.digitChar (n % 10)).toNat - 48 = n % 10 :=
      digitChar_val _ (Nat.mod_lt _ (by decide))
    rw [Nat.toDigitsCore]
    split
    · rename_i h0
      rw [digitsVal_cons, hd]
      have : n % 10 = n := by omega
      rw [this]
    · rename_i h0
      have hlt : n / 10 < fuel := by omega
      rw [ih (n / 10) _ hlt, digitsVal_cons, hd, List.length_cons, pow_succ]
      have h2 : n * 10 ^ acc.length = (10 * (n / 10) + n % 10) * 10 ^ acc.length := by
        rw [Nat.div_add_mod n 10]
      rw [h2]
      ring

theorem toDigits_val (n : Nat) : digitsVal (Nat.toDigits 10 n) = n := by
  unfold Nat.toDigits
  rw [toDigitsCore_val (n + 1) n [] (Nat.lt_succ_self n)]
  simp [digitsVal]

theorem toDigits_isDigit (n : Nat) : ∀ c ∈ Nat.toDigits 10 n, c.isDigit = true :=
  toDigitsCore_isDigit _ _ _ (by simp)

theorem toDigits_ne_nil (n : Nat) : Nat.toDigits 10 n ≠ [] := toString_nat_ne_nil n

theorem takeWhile_digits (ds r : List Char) (hds : ∀ c ∈ ds, c.isDigit = true)
    (hr : ∀ c ∈ r.head?, c.isDigit = false) :
    (ds ++ r).takeWhile Char.isDigit = ds ∧ (ds ++ r).dropWhile Char.isDigit = r := by
  induction ds with
  | nil =>
    cases r with
    | nil => simp
    | cons c cs =>
      have hc : c.isDigit = false := hr c (by simp)
      simp [List.takeWhile, List.dropWhile, hc]
  | cons d ds ih =>
    have hd : d.isDigit = true := hds d (by simp)
    have := ih (fun c hc => hds c (List.mem_cons_of_mem _ hc))
    simp [List.takeWhile, List.dropWhile, hd, this.1, this.2]

theorem takeWhile_all_digits (ds : List Char) (hds : ∀ c ∈ ds, c.isDigit = true) :
    ds.takeWhile Char.isDigit = ds ∧ ds.dropWhile Char.isDigit = [] := by
  have := takeWhile_digits ds [] hds (by simp)
  simpa using this

/-! ## The value of the rendered text -/

theorem exponentValue_nil : exponentValue [] = some 0 := rfl

theorem magnitudeValue_fixed (whole frac : List Char) (hw : ∀ c ∈ whole, c.isDigit = true)
    (hne : whole ≠ []) (hf : ∀ c ∈ frac, c.isDigit = true) :
    magnitudeValue (whole ++ (if frac.isEmpty then [] else Char.ofNat 46 :: frac)) =
      some ((digitsVal whole : ℚ) + (digitsVal frac : ℚ) / (10 : ℚ) ^ frac.length) := by
  cases frac with
  | nil =>
    have h := takeWhile_all_digits whole hw
    simp [magnitudeValue, h.1, h.2, hne, exponentValue, digitsVal]
  | cons f fs =>
    have hdot : (Char.ofNat 46).isDigit = false := by decide
    have h := takeWhile_digits whole (Char.ofNat 46 :: f :: fs) hw (by simp [hdot])
    have h2 := takeWhile_all_digits (f :: fs) hf
    simp only [List.isEmpty_cons, Bool.false_eq_true, if_false]
    unfold magnitudeValue
    simp only [h.1, h.2, if_true, h2.1, h2.2, hne, if_false, exponentValue_nil]
    simp

theorem exponentValue_signed (sgn : Char) (ds : List Char) (hds : ∀ c ∈ ds, c.isDigit = true)
    (hne : ds ≠ []) (hs : sgn = Char.ofNat 43 ∨ sgn = Char.ofNat 45) :
    exponentValue (Char.ofNat 101 :: sgn :: ds) =
      some (if sgn = Char.ofNat 45 then -(digitsVal ds : Int) else (digitsVal ds : Int)) := by
  have hall : ds.all Char.isDigit = true := by
    rw [List.all_eq_true]; exact hds
  rcases hs with rfl | rfl
  · simp [exponentValue, hne, hall]
  · simp [exponentValue, hne, hall]

theorem magnitudeValue_exp (first : Char) (tail : List Char) (sgn : Char) (ds : List Char)
    (h1 : first.isDigit = true) (ht : ∀ c ∈ tail, c.isDigit = true)
    (hds : ∀ c ∈ ds, c.isDigit = true) (hne : ds ≠ [])
    (hs : sgn = Char.ofNat 43 ∨ sgn = Char.ofNat 45) :
    magnitudeValue (first :: (if tail.isEmpty then [] else Char.ofNat 46 :: tail) ++
        Char.ofNat 101 :: sgn :: ds) =
      some ((((first.toNat - 48 : Nat) : ℚ) + (digitsVal tail : ℚ) / (10 : ℚ) ^ tail.length) *
        (10 : ℚ) ^ (if sgn = Char.ofNat 45 then -(digitsVal ds : Int) else (digitsVal ds : Int))) := by
  have he : (Char.ofNat 101).isDigit = false := by decide
  have hdot : (Char.ofNat 46).isDigit = false := by decide
  have hne101 : ¬ (Char.ofNat 101 = Char.ofNat 46) := by decide
  have hev := exponentValue_signed sgn ds hds hne hs
  have hfirst : digitsVal [first] = first.toNat - 48 := by simp [digitsVal]
  cases tail with
  | nil =>
    have h := takeWhile_digits [first] (Char.ofNat 101 :: sgn :: ds) (by simpa using h1)
      (by simp [he])
    simp only [List.isEmpty_nil, if_true, List.cons_append, List.nil_append] at h ⊢
    unfold magnitudeValue
    simp only [h.1, h.2, hne101, if_false, hev, hfirst]
    simp [digitsVal]
  | cons f fs =>
    have h := takeWhile_digits [first]
      (Char.ofNat 46 :: ((f :: fs) ++ Char.ofNat 101 :: sgn :: ds)) (by simpa using h1)
      (by simp [hdot])
    have h2 := takeWhile_digits (f :: fs) (Char.ofNat 101 :: sgn :: ds) ht (by simp [he])
    simp only [List.isEmpty_cons, Bool.false_eq_true, if_false, List.cons_append,
      List.nil_append] at h h2 ⊢
    unfold magnitudeValue
    simp only [h.1, h.2, if_true, h2.1, h2.2, hev, hfirst]
    simp

theorem numberValue_signed (neg : Bool) (body : List Char) (c : Char) (r : List Char)
    (hb : body = c :: r) (hc : c.isDigit = true) :
    numberValue (String.mk ((if neg then [Char.ofNat 45] else []) ++ body)) =
      (magnitudeValue body).map (fun q => (neg, q)) := by
  subst hb
  have hc45 : c ≠ Char.ofNat 45 := by
    intro h; rw [h] at hc; exact absurd hc (by decide)
  cases neg
  · simp [numberValue, hc45]
  · simp [numberValue]

/-- Format `f` of the digits `ds` with the point at `dp` denotes
`digitsVal ds * 10^(dp - length)`. -/
theorem fmtF_value (neg : Bool) (ds : List Char) (dp : Int)
    (hds : ∀ c ∈ ds, c.isDigit = true) :
    numberValue (String.mk (fmtF neg ds dp)) =
      some (neg, (digitsVal ds : ℚ) * (10 : ℚ) ^ (dp - (ds.length : Int))) := by
  have h10 : (10 : ℚ) ≠ 0 := by norm_num
  have h0 : (Char.ofNat 48).isDigit = true := by decide
  unfold fmtF
  by_cases hdp : 0 < dp
  · -- digits before the point
    simp only [hdp, if_true]
    obtain ⟨n, hn⟩ : ∃ n : Nat, dp = (n : Int) := ⟨dp.toNat, (Int.toNat_of_nonneg hdp.le).symm⟩
    subst hn
    have hnpos : 0 < n := by exact_mod_cast hdp
    simp only [Int.toNat_ofNat]
    have hwd : ∀ c ∈ ds.take n ++ List.replicate (n - ds.length) (Char.ofNat 48),
        c.isDigit = true := by
      intro c hc
      rcases List.mem_append.1 hc with hc | hc
      · exact hds c (List.mem_of_mem_take hc)
      · exact zeros_isDigit _ c hc
    have hwne : ds.take n ++ List.replicate (n - ds.length) (Char.ofNat 48) ≠ [] := by
      intro h
      have hl := congrArg List.length h
      simp only [List.length_append, List.length_take, List.length_replicate,
        List.length_nil] at hl
      omega
    have hfd : ∀ c ∈ ds.drop n, c.isDigit = true :=
      fun c hc => hds c (List.mem_of_mem_drop hc)
    obtain ⟨c, r, hcr⟩ : ∃ c r, ds.take n ++ List.replicate (n - ds.length) (Char.ofNat 48) ++
        (if (ds.drop n).isEmpty then [] else Char.ofNat 46 :: ds.drop n) = c :: r := by
      cases hw : ds.take n ++ List.replicate (n - ds.length) (Char.ofNat 48) with
      | nil => exact absurd hw hwne
      | cons c r => exact ⟨c, _, rfl⟩
    have hc : c.isDigit = true := by
      cases hw : ds.take n ++ List.replicate (n - ds.length) (Char.ofNat 48) with
      | nil => exact absurd hw hwne
      | cons c2 r2 =>
        rw [hw] at hcr
        simp only [List.cons_append, List.cons.injEq] at hcr
        rw [← hcr.1]
        exact hwd c2 (by rw [hw]; simp)
    rw [List.append_assoc, numberValue_signed neg _ c r hcr hc,
      magnitudeValue_fixed _ _ hwd hwne hfd]
    simp only [Option.map_some', Option.some.injEq, Prod.mk.injEq, true_and]
    rw [digitsVal_append, digitsVal_zeros]
    simp only [List.length_replicate, List.length_drop, add_zero]
    have hsplit : digitsVal ds =
        digitsVal (ds.take n) * 10 ^ (ds.length - n) + digitsVal (ds.drop n) := by
      conv_lhs => rw [← List.take_append_drop n ds]
      rw [digitsVal_append, List.length_drop]
    by_cases hlen : ds.length ≤ n
    · have htake : ds.take n = ds := List.take_of_length_le hlen
      have hdrop : ds.drop n = [] := List.drop_of_length_le hlen
      rw [htake, hdrop, digitsVal_nil]
      have : ((n : Int) - (ds.length : Int)) = ((n - ds.length : Nat) : Int) := by omega
      rw [this, zpow_natCast]
      have hz : ds.length - n = 0 := by omega
      rw [hz]
      push_cast
      simp
    · have hlt : n < ds.length := by omega
      have hz : n - ds.length = 0 := by omega
      rw [hz, hsplit]
      have : ((n : Int) - (ds.length : Int)) = -((ds.length - n : Nat) : Int) := by omega
      rw [this, zpow_neg, zpow_natCast]
      push_cast
      field_simp
  · -- the value is below one
    simp only [hdp, if_false]
    have hfd : ∀ c ∈ List.replicate dp.natAbs (Char.ofNat 48) ++ ds, c.isDigit = true := by
      intro c hc
      rcases List.mem_append.1 hc with hc | hc
      · exact zeros_isDigit _ c hc
      · exact hds c hc
    rw [List.append_assoc, numberValue_signed neg ([Char.ofNat 48] ++ _) (Char.ofNat 48) _ rfl h0,
      magnitudeValue_fixed [Char.ofNat 48] _ (by simp [h0]) (by simp) hfd]
    simp only [Option.map_some', Option.some.injEq, Prod.mk.injEq, true_and]
    rw [digitsVal_append, digitsVal_zeros]
    have hv0 : digitsVal [Char.ofNat 48] = 0 := by decide
    rw [hv0]
    simp only [List.length_append, List.length_replicate, zero_mul, zero_add, Nat.cast_zero]
    have : dp - (ds.length : Int) = -((dp.natAbs + ds.length : Nat) : Int) := by omega
    rw [this, zpow_neg, zpow_natCast]
    field_simp

theorem cleanExponent_spec (A : List Char) (sgn : Char) (E : List Char)
    (hE : ∀ c ∈ E, c.isDigit = true) (hne : E ≠ [])
    (hs : sgn = Char.ofNat 43 ∨ sgn = Char.ofNat 45) :
    ∃ E2 : List Char, (∀ c ∈ E2, c.isDigit = true) ∧ E2 ≠ [] ∧ digitsVal E2 = digitsVal E ∧
      cleanExponent (A ++ Char.ofNat 101 :: sgn :: E) = A ++ Char.ofNat 101 :: sgn :: E2 := by
  have hsgn101 : ¬ (Char.ofNat 101 = Char.ofNat 45 ∨ Char.ofNat 101 = Char.ofNat 43) := by decide
  obtain ⟨R, hR⟩ : ∃ R, E = R.reverse := ⟨E.reverse, by simp⟩
  subst hR
  have hrev : (A ++ Char.ofNat 101 :: sgn :: R.reverse).reverse =
      R ++ sgn :: Char.ofNat 101 :: A.reverse := by simp
  have hRd : ∀ c ∈ R, c.isDigit = true := fun c hc => hE c (by simpa using hc)
  match R, hne, hE, hrev, hRd with
  | [], hne, _, _, _ => exact absurd rfl hne
  | [l], _, hE, hrev, _ =>
    refine ⟨[l].reverse, hE, by simp, rfl, ?_⟩
    unfold cleanExponent
    rw [hrev]
    cases hA : A.reverse with
    | nil => simp
    | cons a t => simp [hsgn101]
  | [l, z], _, hE, hrev, hRd =>
    by_cases hz : z = Char.ofNat 48
    · refine ⟨[l], fun c hc => hRd c (by simp at hc; simp [hc]), by simp, ?_, ?_⟩
      · subst hz
        simp only [List.reverse_cons, List.reverse_nil, List.nil_append, List.singleton_append]
        rw [digitsVal_cons, digitsVal_cons]
        have : (Char.ofNat 48).toNat - 48 = 0 := by decide
        rw [this]; simp [digitsVal]
      · unfold cleanExponent
        rw [hrev]
        have hs2 : sgn = Char.ofNat 45 ∨ sgn = Char.ofNat 43 := hs.symm
        simp [hz, hs2]
    · refine ⟨[l, z].reverse, hE, by simp, rfl, ?_⟩
      unfold cleanExponent
      rw [hrev]
      simp [hz]
  | l :: z :: x :: R2, _, hE, hrev, hRd =>
    refine ⟨(l :: z :: x :: R2).reverse, hE, by simp, rfl, ?_⟩
    have hx : ¬ (x = Char.ofNat 45 ∨ x = Char.ofNat 43) := by
      have hxd := hRd x (by simp)
      rintro (h | h) <;> (rw [h] at hxd; exact absurd hxd (by decide))
    unfold cleanExponent
    rw [hrev]
    cases R2 with
    | nil => simp [hx]
    | cons r rs => simp [hx]

theorem expDigits_spec (n : Nat) :
    let E := if n < 10 then [Char.ofNat 48, Nat.digitChar n]
      else if n < 100 then [Nat.digitChar (n / 10), Nat.digitChar (n % 10)]
      else if n < 1000 then
        [Nat.digitChar (n / 100), Nat.digitChar (n / 10 % 10), Nat.digitChar (n % 10)]
      else Nat.toDigits 10 n
    (∀ c ∈ E, c.isDigit = true) ∧ E ≠ [] ∧ digitsVal E = n := by
  have h0 : (Char.ofNat 48).isDigit = true := by decide
  have hv0 : (Char.ofNat 48).toNat - 48 = 0 := by decide
  intro E
  simp only [E]
  split_ifs with h1 h2 h3
  · refine ⟨?_, by simp, ?_⟩
    · intro c hc
      simp only [List.mem_cons, List.mem_singleton, List.not_mem_nil, or_false] at hc
      rcases hc with rfl | rfl
      · exact h0
      · exact digitChar_isDigit n h1
    · rw [digitsVal_cons, digitsVal_cons, hv0, digitChar_val n h1]
      simp [digitsVal]
  · refine ⟨?_, by simp, ?_⟩
    · intro c hc
      simp only [List.mem_cons, List.mem_singleton, List.not_mem_nil, or_false] at hc
      rcases hc with rfl | rfl
      · exact digitChar_isDigit _ (by omega)
      · exact digitChar_isDigit _ (by omega)
    · rw [digitsVal_cons, digitsVal_cons, digitChar_val _ (by omega : n / 10 < 10),
        digitChar_val _ (by omega : n % 10 < 10)]
      simp [digitsVal]
      omega
  · refine ⟨?_, by simp, ?_⟩
    · intro c hc
      simp only [List.mem_cons, List.mem_singleton, List.not_mem_nil, or_false] at hc
      rcases hc with rfl | rfl | rfl
      · exact digitChar_isDigit _ (by omega)
      · exact digitChar_isDigit _ (by omega)
      · exact digitChar_isDigit _ (by omega)
    · rw [digitsVal_cons, digitsVal_cons, digitsVal_cons,
        digitChar_val _ (by omega : n / 100 < 10),
        digitChar_val _ (by omega : n / 10 % 10 < 10),
        digitChar_val _ (by omega : n % 10 < 10)]
      simp [digitsVal]
      omega
  · exact ⟨toDigits_isDigit n, toDigits_ne_nil n, toDigits_val n⟩

/-- Format `e` of the digits `ds`, after the clean-up of the exponent, denotes
`digitsVal ds * 10^(dp - length)`. -/
theorem fmtE_value (neg : Bool) (ds : List Char) (dp : Int)
    (hds : ∀ c ∈ ds, c.isDigit = true) (hne : ds ≠ []) :
    numberValue (String.mk (cleanExponent (fmtE neg ds dp))) =
      some (neg, (digitsVal ds : ℚ) * (10 : ℚ) ^ (dp - (ds.length : Int))) := by
  obtain ⟨d, tail, rfl⟩ : ∃ d tail, ds = d :: tail := by
    cases ds with
    | nil => exact absurd rfl hne
    | cons d tail => exact ⟨d, tail, rfl⟩
  have hd : d.isDigit = true := hds d (by simp)
  have ht : ∀ c ∈ tail, c.isDigit = true := fun c hc => hds c (List.mem_cons_of_mem _ hc)
  obtain ⟨hEd, hEne, hEv⟩ := expDigits_spec (dp - 1).natAbs
  have hsg : (if dp - 1 < 0 then Char.ofNat 45 else Char.ofNat 43) = Char.ofNat 43 ∨
      (if dp - 1 < 0 then Char.ofNat 45 else Char.ofNat 43) = Char.ofNat 45 := by
    split_ifs <;> simp
  unfold fmtE
  simp only [List.headD_cons, List.tail_cons, List.isEmpty_cons, Bool.false_eq_true, if_false]
  obtain ⟨E2, hE2d, hE2ne, hE2v, hclean⟩ := cleanExponent_spec
    ((if neg then [Char.ofNat 45] else []) ++
      d :: (if tail.isEmpty then [] else Char.ofNat 46 :: tail))
    (if dp - 1 < 0 then Char.ofNat 45 else Char.ofNat 43) _ hEd hEne hsg
  have hshape : ((if neg then [Char.ofNat 45] else []) ++
      d :: (if tail.isEmpty then [] else Char.ofNat 46 :: tail)) ++
      Char.ofNat 101 :: (if dp - 1 < 0 then Char.ofNat 45 else Char.ofNat 43) :: E2 =
      (if neg then [Char.ofNat 45] else []) ++
      (d :: (if tail.isEmpty then [] else Char.ofNat 46 :: tail) ++
        Char.ofNat 101 :: (if dp - 1 < 0 then Char.ofNat 45 else Char.ofNat 43) :: E2) := by
    simp
  simp only [List.append_assoc, List.cons_append] at hclean hshape ⊢
  rw [hclean]
  rw [numberValue_signed neg _ d _ rfl hd]
  have hm := magnitudeValue_exp d tail
    (if dp - 1 < 0 then Char.ofNat 45 else Char.ofNat 43) E2 hd ht hE2d hE2ne hsg
  simp only [List.append_assoc, List.cons_append] at hm
  rw [hm]
  simp only [Option.map_some', Option.some.injEq, Prod.mk.injEq, true_and]
  rw [hE2v, hEv, digitsVal_cons]
  have h10 : (10 : ℚ) ≠ 0 := by norm_num
  have hexp : (if (if dp - 1 < 0 then Char.ofNat 45 else Char.ofNat 43) = Char.ofNat 45 then
      -(((dp - 1).natAbs : Nat) : Int) else (((dp - 1).natAbs : Nat) : Int)) = dp - 1 := by
    split_ifs with h1 h2 h2
    · omega
    · exact absurd rfl h2
    · exact absurd h2 (by decide)
    · omega
  rw [hexp]
  have hsplit : dp - ((d :: tail).length : Int) = (dp - 1) + -((tail.length : Nat) : Int) := by
    simp only [List.length_cons]; push_cast; ring
  rw [hsplit, zpow_add₀ h10, zpow_neg, zpow_natCast]
  push_cast
  field_simp

/-! ## The shortest digits lie in the rounding interval -/

theorem pow10Frac_pos (k : Int) : 0 < (pow10Frac k).1 ∧ 0 < (pow10Frac k).2 := by
  cases k <;> simp [pow10Frac]

theorem pow2Frac_pos_left (e : Int) : 0 < (pow2Frac e).1 := by
  cases e <;> simp [pow2Frac]

theorem pow10Frac_val (k : Int) :
    ((pow10Frac k).1 : ℚ) / ((pow10Frac k).2 : ℚ) = (10 : ℚ) ^ k := by
  cases k with
  | ofNat j => simp [pow10Frac]
  | negSucc j => simp [pow10Frac, zpow_negSucc]

/-- Comparisons of `c * 10^k` with `x * 2^(e-2)`, cross-multiplied. -/
theorem cross_le (c x : Nat) (k e : Int) :
    ((c : ℚ) * (10 : ℚ) ^ k ≤ (x : ℚ) * (2 : ℚ) ^ (e - 2) ↔
      c * ((pow10Frac k).1 * (pow2Frac (e - 2)).2) ≤
        x * ((pow2Frac (e - 2)).1 * (pow10Frac k).2)) ∧
    ((x : ℚ) * (2 : ℚ) ^ (e - 2) ≤ (c : ℚ) * (10 : ℚ) ^ k ↔
      x * ((pow2Frac (e - 2)).1 * (pow10Frac k).2) ≤
        c * ((pow10Frac k).1 * (pow2Frac (e - 2)).2)) := by
  have htd : (0 : ℚ) < ((pow10Frac k).2 : ℚ) := by exact_mod_cast (pow10Frac_pos k).2
  have hpd : (0 : ℚ) < ((pow2Frac (e - 2)).2 : ℚ) := by exact_mod_cast pow2Frac_pos (e - 2)
  rw [← pow10Frac_val k, ← pow2Frac_val (e - 2)]
  constructor
  · rw [mul_div_assoc', mul_div_assoc', div_le_div_iff₀ htd hpd]
    constructor
    · intro h
      have : ((c * ((pow10Frac k).1 * (pow2Frac (e - 2)).2) : Nat) : ℚ) ≤
          ((x * ((pow2Frac (e - 2)).1 * (pow10Frac k).2) : Nat) : ℚ) := by
        push_cast; linarith
      exact_mod_cast this
    · intro h
      have : ((c * ((pow10Frac k).1 * (pow2Frac (e - 2)).2) : Nat) : ℚ) ≤
          ((x * ((pow2Frac (e - 2)).1 * (pow10Frac k).2) : Nat) : ℚ) := by
        exact_mod_cast h
      push_cast at this; linarith
  · rw [mul_div_assoc', mul_div_assoc', div_le_div_iff₀ hpd htd]
    constructor
    · intro h
      have : ((x * ((pow2Frac (e - 2)).1 * (pow10Frac k).2) : Nat) : ℚ) ≤
          ((c * ((pow10Frac k).1 * (pow2Frac (e - 2)).2) : Nat) : ℚ) := by
        push_cast; linarith
      exact_mod_cast this
    · intro h
      have : ((x * ((pow2Frac (e - 2)).1 * (pow10Frac k).2) : Nat) : ℚ) ≤
          ((c * ((pow10Frac k).1 * (pow2Frac (e - 2)).2) : Nat) : ℚ) := by
        exact_mod_cast h
      push_cast at this; linarith

/-- The rounding interval in units of `2^(e-2)`, with natural-number bounds. -/
theorem roundsTo_units (m : Nat) (e : Int) (q : ℚ) (hm : 0 < m) :
    roundsTo m e q ↔
      (if m % 2 = 0 then
        (((if 2 ^ 52 < m ∨ e = -1074 then 4 * m - 2 else 4 * m - 1 : Nat) : ℚ) *
            (2 : ℚ) ^ (e - 2) ≤ q ∧ q ≤ ((4 * m + 2 : Nat) : ℚ) * (2 : ℚ) ^ (e - 2))
      else
        (((if 2 ^ 52 < m ∨ e = -1074 then 4 * m - 2 else 4 * m - 1 : Nat) : ℚ) *
            (2 : ℚ) ^ (e - 2) < q ∧ q < ((4 * m + 2 : Nat) : ℚ) * (2 : ℚ) ^ (e - 2))) := by
  have h2 : (2 : ℚ) ≠ 0 := by norm_num
  have hpow : (2 : ℚ) ^ (e - 1) = 2 * (2 : ℚ) ^ (e - 2) := by
    have : e - 1 = (e - 2) + 1 := by ring
    rw [this, zpow_add₀ h2, zpow_one]; ring
  have hup : (2 * (m : ℚ) + 1) * (2 : ℚ) ^ (e - 1) =
      ((4 * m + 2 : Nat) : ℚ) * (2 : ℚ) ^ (e - 2) := by
    rw [hpow]; push_cast; ring
  have hlo : (if 2 ^ 52 < m ∨ e = -1074 then (2 * (m : ℚ) - 1) * (2 : ℚ) ^ (e - 1)
      else (4 * (m : ℚ) - 1) * (2 : ℚ) ^ (e - 2)) =
      ((if 2 ^ 52 < m ∨ e = -1074 then 4 * m - 2 else 4 * m - 1 : Nat) : ℚ) *
        (2 : ℚ) ^ (e - 2) := by
    have c1 : ((4 * m - 2 : Nat) : ℚ) = 4 * (m : ℚ) - 2 := by
      rw [Nat.cast_sub (by omega)]; push_cast; ring
    have c2 : ((4 * m - 1 : Nat) : ℚ) = 4 * (m : ℚ) - 1 := by
      rw [Nat.cast_sub (by omega)]; push_cast; ring
    split_ifs
    · rw [c1, hpow]; ring
    · rw [c2]
  unfold roundsTo
  simp only [hup, hlo]

theorem shortestAt_rounds (m : Nat) (e k : Int) (c : Nat) (hm : 0 < m)
    (h : shortestAt m e k = some c) : roundsTo m e ((c : ℚ) * (10 : ℚ) ^ k) := by
  rw [roundsTo_units m e _ hm]
  have hle := cross_le
  have ha : 0 < (pow10Frac k).1 * (pow2Frac (e - 2)).2 :=
    Nat.mul_pos (pow10Frac_pos k).1 (pow2Frac_pos (e - 2))
  have hb : 0 < (pow2Frac (e - 2)).1 * (pow10Frac k).2 :=
    Nat.mul_pos (pow2Frac_pos_left (e - 2)) (pow10Frac_pos k).2
  generalize hA : (pow10Frac k).1 * (pow2Frac (e - 2)).2 = a at ha
  generalize hB : (pow2Frac (e - 2)).1 * (pow10Frac k).2 = b at hb
  generalize hL : (if 2 ^ 52 < m ∨ e = -1074 then 4 * m - 2 else 4 * m - 1 : Nat) = L
  have hLv : L < 4 * m := by
    rw [← hL]; split_ifs <;> omega
  -- the truncation and its successor bracket the value
  have hd1 : 4 * m * b / a * a ≤ 4 * m * b := Nat.div_mul_le_self _ _
  have hd2 : 4 * m * b < (4 * m * b / a + 1) * a := by
    have := Nat.lt_succ_self (4 * m * b / a)
    exact (Nat.div_lt_iff_lt_mul ha).1 this
  have hLb : L * b < 4 * m * b := Nat.mul_lt_mul_of_pos_right hLv hb
  have hUb : 4 * m * b < (4 * m + 2) * b := Nat.mul_lt_mul_of_pos_right (by omega) hb
  -- the chosen digits in cross-multiplied form
  have key : (if m % 2 = 0 then L * b ≤ c * a ∧ c * a ≤ (4 * m + 2) * b
      else L * b < c * a ∧ c * a < (4 * m + 2) * b) := by
    unfold shortestAt at h
    simp only [hA, hB, hL] at h
    by_cases hpar : m % 2 = 0
    · simp only [hpar, if_true] at h ⊢
      split_ifs at h with h1 h2 h3 h4 h5 h6 <;>
        simp only [Option.some.injEq] at h <;> subst h <;>
        exact ⟨by omega, by omega⟩
    · simp only [hpar, if_false] at h ⊢
      split_ifs at h with h1 h2 h3 h4 h5 h6 <;>
        simp only [Option.some.injEq] at h <;> subst h <;>
        exact ⟨by omega, by omega⟩
  have hcl := (hle c L k e)
  have hcu := (hle c (4 * m + 2) k e)
  rw [hA, hB] at hcl hcu
  by_cases hpar : m % 2 = 0
  · simp only [hpar, if_true] at key ⊢
    exact ⟨hcl.2.2 key.1, hcu.1.2 key.2⟩
  · simp only [hpar, if_false] at key ⊢
    constructor
    · by_contra hcon
      have := hcl.1.1 (not_lt.1 hcon)
      omega
    · by_contra hcon
      have := hcu.2.1 (not_lt.1 hcon)
      omega

/-- The value itself lies strictly inside its rounding interval. -/
theorem roundsTo_self (m : Nat) (e : Int) (hm : 0 < m) :
    roundsTo m e ((m : ℚ) * (2 : ℚ) ^ e) := by
  rw [roundsTo_units m e _ hm]
  have h2 : (2 : ℚ) ≠ 0 := by norm_num
  have hu : (0 : ℚ) < (2 : ℚ) ^ (e - 2) := zpow_pos (by norm_num) _
  have hv : (m : ℚ) * (2 : ℚ) ^ e = ((4 * m : Nat) : ℚ) * (2 : ℚ) ^ (e - 2) := by
    have : e = (e - 2) + 2 := by ring
    conv_lhs => rw [this, zpow_add₀ h2]
    push_cast; norm_num; ring
  rw [hv]
  generalize hL : (if 2 ^ 52 < m ∨ e = -1074 then 4 * m - 2 else 4 * m - 1 : Nat) = L
  have hLlt : L < 4 * m := by
    rw [← hL]; split_ifs <;> omega
  have hLq : (L : ℚ) < ((4 * m : Nat) : ℚ) := by exact_mod_cast hLlt
  have hUq : ((4 * m : Nat) : ℚ) < ((4 * m + 2 : Nat) : ℚ) := by
    exact_mod_cast (by omega : 4 * m < 4 * m + 2)
  have h1 := mul_lt_mul_of_pos_right hLq hu
  have h3 := mul_lt_mul_of_pos_right hUq hu
  split_ifs
  · exact ⟨h1.le, h3.le⟩
  · exact ⟨h1, h3⟩

/-- At the least decimal exponent the digits are the value itself. -/
theorem shortestFrom_zero_exact (m : Nat) (e : Int) :
    (((shortestFrom m e (min e 0) 0).1 : Nat) : ℚ) * (10 : ℚ) ^ (shortestFrom m e (min e 0) 0).2 =
      (m : ℚ) * (2 : ℚ) ^ e := by
  unfold shortestFrom
  simp only
  cases e with
  | ofNat j =>
    have hmin : min (Int.ofNat j) 0 = 0 := by
      apply min_eq_right; exact Int.ofNat_nonneg j
    rw [hmin]
    match j with
    | 0 =>
      have : (Int.ofNat 0 - 2) = Int.negSucc 1 := rfl
      rw [this]
      have h0 : (0 : Int) = Int.ofNat 0 := rfl
      rw [h0]
      simp only [pow2Frac, pow10Frac]
      have h : 4 * m * (1 * 1) / (10 ^ 0 * 2 ^ (1 + 1)) = m := by
        norm_num
      rw [h]
      norm_num
    | 1 =>
      have : (Int.ofNat 1 - 2) = Int.negSucc 0 := rfl
      rw [this]
      have h0 : (0 : Int) = Int.ofNat 0 := rfl
      rw [h0]
      simp only [pow2Frac, pow10Frac]
      have h : 4 * m * (1 * 1) / (10 ^ 0 * 2 ^ (0 + 1)) = 2 * m := by
        norm_num
        omega
      rw [h]
      push_cast
      norm_num
      ring
    | j + 2 =>
      have : (Int.ofNat (j + 2) - 2) = Int.ofNat j := by
        simp
      rw [this]
      have h0 : (0 : Int) = Int.ofNat 0 := rfl
      rw [h0]
      simp only [pow2Frac, pow10Frac]
      have h : 4 * m * (2 ^ j * 1) / (10 ^ 0 * 1) = m * 2 ^ (j + 2) := by
        norm_num
        ring
      rw [h]
      push_cast
      norm_num
      left
      norm_cast
  | negSucc j =>
    have hmin : min (Int.negSucc j) 0 = Int.negSucc j := by
      apply min_eq_left; exact (Int.negSucc_lt_zero j).le
    rw [hmin]
    have : (Int.negSucc j - 2) = Int.negSucc (j + 2) := rfl
    rw [this]
    simp only [pow2Frac, pow10Frac]
    have h : 4 * m * (1 * 10 ^ (j + 1)) / (1 * 2 ^ (j + 2 + 1)) = m * 5 ^ (j + 1) := by
      have e1 : 4 * m * (1 * 10 ^ (j + 1)) = 2 ^ (j + 2 + 1) * (m * 5 ^ (j + 1)) := by
        have : (10 : Nat) ^ (j + 1) = 2 ^ (j + 1) * 5 ^ (j + 1) := by
          rw [← Nat.mul_pow]
        rw [this]; ring
      rw [e1, one_mul, Nat.mul_div_cancel_left _ (by positivity)]
    rw [h]
    push_cast
    rw [zpow_negSucc, zpow_negSucc]
    have : (10 : ℚ) ^ (j + 1) = 2 ^ (j + 1) * 5 ^ (j + 1) := by
      rw [← mul_pow]; norm_num
    rw [this]
    field_simp
    ring

theorem shortestFrom_rounds (m : Nat) (e : Int) (hm : 0 < m) (i : Nat) :
    roundsTo m e (((shortestFrom m e (min e 0) i).1 : ℚ) *
      (10 : ℚ) ^ (shortestFrom m e (min e 0) i).2) := by
  induction i with
  | zero =>
    rw [shortestFrom_zero_exact]
    exact roundsTo_self m e hm
  | succ i ih =>
    unfold shortestFrom
    cases h : shortestAt m e (min e 0 + ((i + 1 : Nat) : Int)) with
    | none => simpa [h] using ih
    | some c =>
      simp only [h]
      exact shortestAt_rounds m e _ c hm h

/-- The shortest digits denote a number that rounds to the float64. -/
theorem shortest_rounds (m : Nat) (e : Int) (hm : 0 < m) :
    (∀ c ∈ (shortest m e).1, c.isDigit = true) ∧ (shortest m e).1 ≠ [] ∧
    roundsTo m e ((digitsVal (shortest m e).1 : ℚ) *
      (10 : ℚ) ^ ((shortest m e).2 - ((shortest m e).1.length : Int))) := by
  unfold shortest
  simp only [Nat.pos_iff_ne_zero.1 hm, if_false]
  refine ⟨toDigits_isDigit _, toDigits_ne_nil _, ?_⟩
  rw [toDigits_val]
  simp only [add_sub_cancel_left]
  exact shortestFrom_rounds m e hm _

/-- The text of a finite float64 denotes its sign and a number that rounds to
it. -/
theorem encodeFinite_reads (neg : Bool) (m : Nat) (e : Int) :
    ∃ q : ℚ, numberValue (encodeFinite neg m e) = some (neg, q) ∧ roundsTo m e q := by
  by_cases hm : m = 0
  · subst hm
    refine ⟨0, ?_, ?_⟩
    · unfold encodeFinite
      simp only [ne_eq, not_true_eq_false, false_and, if_false]
      have hs : shortest 0 e = ([], 0) := by simp [shortest]
      rw [hs, fmtF_value neg [] 0 (by simp)]
      simp [digitsVal]
    · unfold roundsTo
      have hp1 : (0 : ℚ) < (2 : ℚ) ^ (e - 1) := zpow_pos (by norm_num) _
      have hp2 : (0 : ℚ) < (2 : ℚ) ^ (e - 2) := zpow_pos (by norm_num) _
      simp only [Nat.cast_zero, mul_zero, zero_add, zero_sub, one_mul, Nat.zero_mod, if_true]
      constructor
      · split_ifs <;> linarith
      · linarith
  · have hpos : 0 < m := Nat.pos_of_ne_zero hm
    obtain ⟨hd, hne, hr⟩ := shortest_rounds m e hpos
    refine ⟨_, ?_, hr⟩
    unfold encodeFinite
    simp only
    split_ifs
    · exact fmtE_value neg _ _ hd hne
    · exact fmtF_value neg _ _ hd

/-! ## The IEEE encoding -/

theorem normDown_value (fuel : Nat) : ∀ (m : Nat) (e : Int),
    ((normDown fuel m e).1 : ℚ) * (2 : ℚ) ^ (normDown fuel m e).2 = (m : ℚ) * (2 : ℚ) ^ e := by
  induction fuel with
  | zero => intro m e; rfl
  | succ fuel ih =>
    intro m e
    unfold normDown
    split_ifs with h
    · rw [ih]
      have hm : m = 2 * (m / 2) := by omega
      have h2 : (2 : ℚ) ≠ 0 := by norm_num
      rw [zpow_add₀ h2, zpow_one]
      conv_rhs => rw [hm]
      push_cast
      ring
    · rfl

theorem normUp_value (fuel : Nat) : ∀ (m : Nat) (e : Int),
    ((normUp fuel m e).1 : ℚ) * (2 : ℚ) ^ (normUp fuel m e).2 = (m : ℚ) * (2 : ℚ) ^ e := by
  induction fuel with
  | zero => intro m e; rfl
  | succ fuel ih =>
    intro m e
    unfold normUp
    split_ifs with h
    · rw [ih]
      have h2 : (2 : ℚ) ≠ 0 := by norm_num
      rw [zpow_sub₀ h2, zpow_one]
      push_cast
      field_simp
      ring
    · rfl

/-- The IEEE encoding denotes the same value. -/
theorem canonical_value (m : Nat) (e : Int) :
    ((canonical m e).1 : ℚ) * (2 : ℚ) ^ (canonical m e).2 = (m : ℚ) * (2 : ℚ) ^ e := by
  unfold canonical
  split_ifs with h
  · subst h; simp
  · simp only
    rw [normUp_value, normDown_value]

/-- An IEEE encoding is its own IEEE encoding. -/
theorem canonical_of_isIEEE (neg : Bool) (m : Nat) (e : Int)
    (h : (Float64.finite neg m e).isIEEE = true) : canonical m e = (m, e) := by
  simp only [Float64.isIEEE, decide_eq_true_eq] at h
  obtain ⟨h53, hlo, hhi, hnorm⟩ := h
  unfold canonical
  split_ifs with h0
  · subst h0
    rcases hnorm with hn | hn
    · norm_num at hn
    · rw [hn]
  · simp only
    have hd : normDown m m e = (m, e) := by
      cases m with
      | zero => exact absurd rfl h0
      | succ k =>
        unfold normDown
        have : ¬ ((k + 1) % 2 = 0 ∧ (2 ^ 53 ≤ k + 1 ∨ e < -1074)) := by
          rintro ⟨-, h1 | h1⟩ <;> omega
        simp only [this, if_false]
    rw [hd]
    unfold normUp
    have : ¬ (m < 2 ^ 52 ∧ -1074 < e) := by
      rintro ⟨h1, h2⟩
      rcases hnorm with hn | hn <;> omega
    simp only [this, if_false]

/-- The JSON number of a finite float64 in its IEEE encoding reads back as that
float64. -/
theorem jsonFloat_reads (x : Float64) (hx : x.isIEEE = true) :
    ∃ t : String, jsonFloat x = .ok t ∧ readsBackAs t x := by
  cases x with
  | finite neg m e =>
    have hc := canonical_of_isIEEE neg m e hx
    refine ⟨encodeFinite neg m e, ?_, ?_⟩
    · show Except.ok (encodeFinite neg (canonical m e).1 (canonical m e).2) = _
      rw [hc]
    · exact encodeFinite_reads neg m e
  | inf neg => simp [Float64.isIEEE] at hx
  | nan => simp [Float64.isIEEE] at hx

/-- The JSON number of any finite value reads back as the float64 with its IEEE
encoding, which denotes the same value. -/
theorem jsonFloat_reads_canonical (neg : Bool) (m : Nat) (e : Int) :
    ∃ t : String, jsonFloat (Float64.finite neg m e) = .ok t ∧
      readsBackAs t (Float64.finite neg (canonical m e).1 (canonical m e).2) ∧
      ((canonical m e).1 : ℚ) * (2 : ℚ) ^ (canonical m e).2 = (m : ℚ) * (2 : ℚ) ^ e :=
  ⟨_, rfl, encodeFinite_reads neg _ _, canonical_value m e⟩

/-- A value written with a short significand is encoded like its float64:
`3 * 2^(-2)` is `0.75`. -/
theorem jsonFloat_three_quarters :
    jsonFloat (Float64.finite false 3 (-2)) = .ok "0.75" ∧
    jsonFloat (Float64.finite false 6755399441055744 (-53)) = .ok "0.75" ∧
    canonical 3 (-2) = (6755399441055744, -53) := by
  refine ⟨rfl, rfl, ?_⟩
  decide

/-- A number that rounds to a float64 is within half a unit in the last place
of it. -/
theorem roundsTo_near (m : Nat) (e : Int) (q : ℚ) (h : roundsTo m e q) :
    |q - (m : ℚ) * (2 : ℚ) ^ e| ≤ (2 : ℚ) ^ (e - 1) := by
  have h2 : (2 : ℚ) ≠ 0 := by norm_num
  have hu : (0 : ℚ) < (2 : ℚ) ^ (e - 2) := zpow_pos (by norm_num) _
  have hp1 : (2 : ℚ) ^ (e - 1) = 2 * (2 : ℚ) ^ (e - 2) := by
    have : e - 1 = (e - 2) + 1 := by ring
    rw [this, zpow_add₀ h2, zpow_one]; ring
  have hp0 : (2 : ℚ) ^ e = 4 * (2 : ℚ) ^ (e - 2) := by
    have : e = (e - 2) + 2 := by ring
    conv_lhs => rw [this, zpow_add₀ h2]
    norm_num; ring
  unfold roundsTo at h
  simp only at h
  rw [hp1] at h ⊢
  rw [hp0]
  rw [abs_le]
  have hm0 : (0 : ℚ) ≤ (m : ℚ) := Nat.cast_nonneg m
  split_ifs at h with h1 h3 h3 <;> constructor <;> nlinarith [h.1, h.2]

/-! ## Lemmas on `run` used by several claims -/

theorem sprintln_one (x : String) : Sprintln [x] = x ++ "\n" := rfl

theorem run_calls (w : World) (s : Effects) (loc : Location)
    (h : w.Geocoding w.apiKey queriedAddress = .ok loc) :
    (run w s).2.calls =
      s.calls ++ [NetCall.geocoding w.apiKey queriedAddress, NetCall.httpGet requestURL] := by
  rw [run_after_geocoding w s loc h]
  dsimp only
  cases w.httpGet requestURL with
  | error err => rfl
  | ok resp =>
    obtain ⟨body⟩ := resp
    cases body with
    | error err => rfl
    | ok outBytes =>
      dsimp only
      cases w.jsonUnmarshal outBytes with
      | error err => rfl
      | ok res =>
        obtain ⟨fs⟩ := res
        rcases fs with _ | ⟨f, _ | ⟨g, t⟩⟩ <;> rfl

theorem run_decoded (w : World) (s : Effects) (loc : Location) (resp : Response)
    (outBytes : String) (res : Result)
    (hgeo : w.Geocoding w.apiKey queriedAddress = .ok loc)
    (hget : w.httpGet requestURL = .ok resp)
    (hbody : resp.Body = .ok outBytes)
    (hdec : w.jsonUnmarshal outBytes = .ok res) :
    run w s =
      (let s1 : Effects :=
        { s with calls := s.calls ++ [NetCall.geocoding w.apiKey queriedAddress,
                                       NetCall.httpGet requestURL] }
       match res.Features with
       | [f] => (none, Println (Println s1 ["Here's some risk information about your home:"])
                  [f.Attritubes.String])
       | _ => (some ("expected 1 Features, but got " ++ toString res.Features.length), s1)) := by
  rw [run_after_geocoding w s loc hgeo]
  simp only [hget, hbody, hdec]

/-- A failing run leaves standard output and standard error as they were. -/
theorem run_error_silent (w : World) (s : Effects) (h : (run w s).1 ≠ none) :
    (run w s).2.stdout = s.stdout ∧ (run w s).2.stderr = s.stderr := by
  cases hgeo : w.Geocoding w.apiKey queriedAddress with
  | error e => rw [run_geocoding_error w s e hgeo]; exact ⟨rfl, rfl⟩
  | ok loc =>
    rw [run_after_geocoding w s loc hgeo] at h ⊢
    dsimp only at h ⊢
    cases hget : w.httpGet requestURL with
    | error err => exact ⟨rfl, rfl⟩
    | ok resp =>
      obtain ⟨body⟩ := resp
      rw [hget] at h
      cases body with
      | error err => exact ⟨rfl, rfl⟩
      | ok outBytes =>
        dsimp only at h ⊢
        cases hdec : w.jsonUnmarshal outBytes with
        | error err => exact ⟨rfl, rfl⟩
        | ok res =>
          rw [hdec] at h
          obtain ⟨fs⟩ := res
          rcases fs with _ | ⟨f, _ | ⟨g, t⟩⟩
          · exact ⟨rfl, rfl⟩
          · exact absurd rfl h
          · exact ⟨rfl, rfl⟩

/-- A run without error has printed the preamble and one record. -/
theorem run_ok_output (w : World) (s : Effects) (h : (run w s).1 = none) :
    ∃ a : Attributes, (run w s).2.stdout = s.stdout ++ preamble ++ (a.String ++ "\n") := by
  cases hgeo : w.Geocoding w.apiKey queriedAddress with
  | error e => rw [run_geocoding_error w s e hgeo] at h; exact absurd h (by simp)
  | ok loc =>
    rw [run_after_geocoding w s loc hgeo] at h ⊢
    dsimp only at h ⊢
    cases hget : w.httpGet requestURL with
    | error err => rw [hget] at h; exact absurd h (by simp)
    | ok resp =>
      obtain ⟨body⟩ := resp
      rw [hget] at h
      cases body with
      | error err => exact absurd h (by simp)
      | ok outBytes =>
        dsimp only at h ⊢
        cases hdec : w.jsonUnmarshal outBytes with
        | error err => rw [hdec] at h; exact absurd h (by simp)
        | ok res =>
          rw [hdec] at h
          obtain ⟨fs⟩ := res
          rcases fs with _ | ⟨f, _ | ⟨g, t⟩⟩
          · exact absurd h (by simp)
          · exact ⟨f.Attritubes, rfl⟩
          · exact absurd h (by simp)

/-! ## The claims -/

/-- C1: once the response has been decoded into `res`, `run` returns the
cardinality error `expected 1 Features, but got <n>` with `n` the number of
features exactly when that number is not 1 (zero features as well as two or
more), and in that case nothing is printed: no feature is picked and no record
is made up. -/
theorem run_feature_count (w : World) (s : Effects) (loc : Location) (resp : Response)
    (outBytes : String) (res : Result)
    (hgeo : w.Geocoding w.apiKey queriedAddress = .ok loc)
    (hget : w.httpGet requestURL = .ok resp)
    (hbody : resp.Body = .ok outBytes)
    (hdec : w.jsonUnmarshal outBytes = .ok res) :
    ((run w s).1 = some ("expected 1 Features, but got " ++ toString res.Features.length) ↔
      res.Features.length ≠ 1) ∧
    (res.Features.length ≠ 1 → (run w s).2.stdout = s.stdout) ∧
    (res.Features.length = 1 → (run w s).1 = none) := by
  rw [run_decoded w s loc resp outBytes res hgeo hget hbody hdec]
  obtain ⟨fs⟩ := res
  rcases fs with _ | ⟨f, _ | ⟨g, t⟩⟩
  · simp
  · simp
  · simp

/-- C1, at a response without features and at a response with two features. -/
theorem run_feature_count_witness :
    (run (constWorld "k" (.ok someLocation) (.ok { Features := [] })) Effects.initial).1 =
        some "expected 1 Features, but got 0" ∧
    (run (constWorld "k" (.ok someLocation)
        (.ok { Features := [{ Attritubes := exampleAttributes }, { Attritubes := nanAttributes }] }))
        Effects.initial).1 = some "expected 1 Features, but got 2" ∧
    (run (constWorld "k" (.ok someLocation)
        (.ok { Features := [{ Attritubes := exampleAttributes }, { Attritubes := nanAttributes }] }))
        Effects.initial).2.stdout = "" :=
  ⟨(run_feature_count (constWorld "k" (.ok someLocation) (.ok { Features := [] })) Effects.initial
      someLocation { Body := .ok "body" } "body" { Features := [] } rfl rfl rfl rfl).1.2 (by decide),
   (run_feature_count _ Effects.initial
      someLocation { Body := .ok "body" } "body"
      { Features := [{ Attritubes := exampleAttributes }, { Attritubes := nanAttributes }] }
      rfl rfl rfl rfl).1.2 (by decide),
   (run_feature_count _ Effects.initial
      someLocation { Body := .ok "body" } "body"
      { Features := [{ Attritubes := exampleAttributes }, { Attritubes := nanAttributes }] }
      rfl rfl rfl rfl).2.1 (by decide)⟩

/-- C2: when the response decodes to exactly one feature `f`, `run` returns no
error and standard output receives the preamble line, then the text of
`Attributes.String` for the attributes of `f`, unmodified, then one newline; the
process then exits with status 0 having written nothing else. -/
theorem run_single_feature (w : World) (s : Effects) (loc : Location) (resp : Response)
    (outBytes : String) (res : Result) (f : Feature)
    (hgeo : w.Geocoding w.apiKey queriedAddress = .ok loc)
    (hget : w.httpGet requestURL = .ok resp)
    (hbody : resp.Body = .ok outBytes)
    (hdec : w.jsonUnmarshal outBytes = .ok res)
    (hone : res.Features = [f]) :
    (run w s).1 = none ∧
    (run w s).2.stdout =
      s.stdout ++ "Here's some risk information about your home:\n" ++
        f.Attritubes.String ++ "\n" ∧
    (run w s).2.stderr = s.stderr ∧
    (w.apiKey ≠ "" →
      (main w).1 = 0 ∧
      (main w).2.stdout =
        "Here's some risk information about your home:\n" ++ f.Attritubes.String ++ "\n" ∧
      (main w).2.stderr = "") := by
  have hrun := fun s => run_decoded w s loc resp outBytes res hgeo hget hbody hdec
  simp only [hone] at hrun
  refine ⟨by rw [hrun], ?_, by rw [hrun]; rfl, ?_⟩
  · rw [hrun]
    simp [Println, sprintln_one, String.append_assoc]
  · intro hkey
    unfold main
    simp only [hkey, if_false, hrun]
    simp [Println, sprintln_one, String.append_assoc]

/-- C2, at a response carrying the example record. -/
theorem run_single_feature_witness :
    (run (constWorld "k" (.ok someLocation) (.ok { Features := [{ Attritubes := exampleAttributes }] }))
        Effects.initial).1 = none ∧
    (run (constWorld "k" (.ok someLocation) (.ok { Features := [{ Attritubes := exampleAttributes }] }))
        Effects.initial).2.stdout =
      "" ++ "Here's some risk information about your home:\n" ++
        exampleAttributes.String ++ "\n" :=
  ⟨(run_single_feature _ Effects.initial someLocation { Body := .ok "body" } "body"
      { Features := [{ Attritubes := exampleAttributes }] } { Attritubes := exampleAttributes }
      rfl rfl rfl rfl rfl).1,
   (run_single_feature _ Effects.initial someLocation { Body := .ok "body" } "body"
      { Features := [{ Attritubes := exampleAttributes }] } { Attritubes := exampleAttributes }
      rfl rfl rfl rfl rfl).2.1⟩

/-- C3: the text of `Attributes.String` is the concatenation of exactly ten
entries `<Label>: <value>` each ended by a newline, the labels in the fixed
order State, County, RiskScore, RiskRating, DroughtRiskScore, DroughtRiskRating,
EarthquakeRiskScore, EarthquakeRiskRating, TornadoRiskScore, TornadoRiskRating;
a string field is its own text unchanged, a score is its `%.2f` text, and every
entry carries the field its label names. -/
theorem attributes_string_entries (a : Attributes) :
    a.String =
      "State: " ++ a.State ++ "\n" ++
      "County: " ++ a.County ++ "\n" ++
      "RiskScore: " ++ formatFloat2 a.RiskScore ++ "\n" ++
      "RiskRating: " ++ a.RiskRating ++ "\n" ++
      "DroughtRiskScore: " ++ formatFloat2 a.DroughtRiskScore ++ "\n" ++
      "DroughtRiskRating: " ++ a.DroughtRiskRating ++ "\n" ++
      "EarthquakeRiskScore: " ++ formatFloat2 a.EarthquakeRiskScore ++ "\n" ++
      "EarthquakeRiskRating: " ++ a.EarthquakeRiskRating ++ "\n" ++
      "TornadoRiskScore: " ++ formatFloat2 a.TornadoRiskScore ++ "\n" ++
      "TornadoRiskRating: " ++ a.TornadoRiskRating ++ "\n" ∧
    a.String = String.join ((entriesOf a).map fun e => e.1 ++ ": " ++ e.2 ++ "\n") ∧
    (entriesOf a).length = 10 ∧
    (entriesOf a).map (fun e => e.1) =
      ["State", "County", "RiskScore", "RiskRating", "DroughtRiskScore", "DroughtRiskRating",
       "EarthquakeRiskScore", "EarthquakeRiskRating", "TornadoRiskScore", "TornadoRiskRating"] := by
  refine ⟨?_, ?_, rfl, rfl⟩
  · apply String.ext
    simp [Attributes.String, Sprintln, String.intercalate, String.intercalate.go,
      String.data_append]
  · apply String.ext
    simp [Attributes.String, Sprintln, String.intercalate, String.intercalate.go,
      String.data_append, entriesOf, String.join]

/-- C4, refuted as stated: an `Attributes` value may hold a NaN score, and its
text is `NaN`, which has no two digits after a decimal point. -/
theorem nan_score_text :
    twoDecimals (formatFloat2 nanAttributes.RiskScore) = false ∧
    nanAttributes.String =
      "State: New York\nCounty: New York\nRiskScore: NaN\nRiskRating: Relatively Low\nDroughtRiskScore: 1.00\nDroughtRiskRating: Very Low\nEarthquakeRiskScore: 2.50\nEarthquakeRiskRating: Low\nTornadoRiskScore: 0.00\nTornadoRiskRating: Very Low\n" := by
  decide

/-- C4, amended: for every `Attributes` value whose four scores are finite, the
text `Attributes.String` renders for each score has exactly two digits after the
decimal point and is the score rounded to the nearest hundredth (the text of `n`
hundredths with `n / 100` within `1 / 200` of the magnitude, under the sign of
the score).  The example record renders `RiskScore: 12.35` on its own line, and
`1.0`, `2.5`, `0.0` render as `1.00`, `2.50`, `0.00`; the score of the example is
the float64 nearest to `12.345`. -/
theorem finite_scores_two_decimals (a : Attributes)
    (hfin : ∀ v ∈ scoresOf a, v.isFinite = true) :
    (∀ v ∈ scoresOf a,
      twoDecimals (formatFloat2 v) = true ∧
      ∃ (neg : Bool) (m : Nat) (e : Int) (n : Nat),
        v = Float64.finite neg m e ∧ formatFloat2 v = fixed2 neg n ∧
        |(n : ℚ) / 100 - (m : ℚ) * (2 : ℚ) ^ e| ≤ 1 / 200) ∧
    exampleAttributes.String =
      "State: New York\nCounty: New York\nRiskScore: 12.35\nRiskRating: Relatively Low\nDroughtRiskScore: 1.00\nDroughtRiskRating: Very Low\nEarthquakeRiskScore: 2.50\nEarthquakeRiskRating: Low\nTornadoRiskScore: 0.00\nTornadoRiskRating: Very Low\n" ∧
    |exampleAttributes.RiskScore.magnitude - 12345 / 1000| ≤ (2 : ℚ) ^ (-50 : Int) ∧
    exampleAttributes.DroughtRiskScore.magnitude = 1 ∧
    exampleAttributes.EarthquakeRiskScore.magnitude = 25 / 10 ∧
    exampleAttributes.TornadoRiskScore.magnitude = 0 := by
  refine ⟨?_, by decide, ?_, ?_, ?_, ?_⟩
  · intro v hv
    have hf := hfin v hv
    cases v with
    | finite neg m e =>
      exact ⟨twoDecimals_fixed2 neg _, neg, m, e, hundredths m e, rfl, rfl, hundredths_near m e⟩
    | inf neg => simp [Float64.isFinite] at hf
    | nan => simp [Float64.isFinite] at hf
  · simp only [exampleAttributes, Float64.magnitude]
    rw [abs_le]
    norm_num
  · simp only [exampleAttributes, Float64.magnitude]
    norm_num
  · simp only [exampleAttributes, Float64.magnitude]
    norm_num
  · simp [exampleAttributes, Float64.magnitude, Float64.zero]

/-- C4 amended, at the example record of the specification. -/
theorem finite_scores_two_decimals_witness :
    twoDecimals (formatFloat2 exampleAttributes.RiskScore) = true ∧
    formatFloat2 exampleAttributes.RiskScore = "12.35" :=
  ⟨((finite_scores_two_decimals exampleAttributes (by decide)).1
      exampleAttributes.RiskScore (by decide)).1, by decide⟩

/-- The resolver hands over the fixed coordinate or an error. -/
theorem esri_handed (w : World) (s s1 : Effects) (x y : Float64)
    (h : esriGeometryPointForAddress w s = ((x, y, none), s1)) : x = dummyX ∧ y = dummyY := by
  unfold esriGeometryPointForAddress at h
  dsimp only at h
  split at h
  · simp at h
  · simp only [Prod.mk.injEq] at h
    exact ⟨h.1.1.symm, h.1.2.1.symm⟩

theorem queryValues_eq (g : String) : queryValues g = ⟨expectedParameters g⟩ := by
  simp [queryValues, Values.Add, Values.Add.go, expectedParameters]

/-- The encoded query for any geometry text: the keys in sorted order, only the
value of `geometry` varying. -/
theorem encode_queryValues (g : String) :
    (queryValues g).Encode =
      "f=json&geometry=" ++ QueryEscape g ++
        "&geometryType=esriGeometryPoint&inSR=102100&outFields=%2A&outSR=102100&spatialRel=esriSpatialRelIntersects&where=1%3D1" := by
  have hkeys : sortKeys (queryValues g).keys =
      ["f", "geometry", "geometryType", "inSR", "outFields", "outSR", "spatialRel", "where"] := by
    have hk : (queryValues g).keys =
        ["geometry", "f", "outFields", "spatialRel", "where", "geometryType", "inSR", "outSR"] := by
      rw [queryValues_eq]
      rfl
    rw [hk]
    decide
  unfold Values.Encode
  rw [hkeys, queryValues_eq]
  have e1 : QueryEscape "f" = "f" := by decide
  have e2 : QueryEscape "json" = "json" := by decide
  have e3 : QueryEscape "geometry" = "geometry" := by decide
  have e4 : QueryEscape "geometryType" = "geometryType" := by decide
  have e5 : QueryEscape "esriGeometryPoint" = "esriGeometryPoint" := by decide
  have e6 : QueryEscape "inSR" = "inSR" := by decide
  have e7 : QueryEscape "102100" = "102100" := by decide
  have e8 : QueryEscape "outFields" = "outFields" := by decide
  have e9 : QueryEscape "*" = "%2A" := by decide
  have e10 : QueryEscape "outSR" = "outSR" := by decide
  have e11 : QueryEscape "spatialRel" = "spatialRel" := by decide
  have e12 : QueryEscape "esriSpatialRelIntersects" = "esriSpatialRelIntersects" := by decide
  have e13 : QueryEscape "where" = "where" := by decide
  have e14 : QueryEscape "1=1" = "1%3D1" := by decide
  simp only [List.flatMap, List.map, List.flatten, Values.lookup, expectedParameters, List.find?]
  simp +decide only [e1, e2, e3, e4, e5, e6, e7, e8, e9, e10, e11, e12, e13, e14]
  apply String.ext
  simp [String.intercalate, String.intercalate.go, String.data_append]

/-- The URL text for any geometry text: the endpoint, a question mark, the
encoded query. -/
theorem urlString_queryValues (g : String) :
    URL.String
      { Scheme := "https", Host := "services.arcgis.com",
        Path := "/XG15cJAlne2vxtgt/arcgis/rest/services/National_Risk_Index_Counties/FeatureServer/0/query",
        RawQuery := (queryValues g).Encode } =
      arcgisEndpoint ++ "?" ++ (queryValues g).Encode := by
  have hne : (queryValues g).Encode ≠ "" := by
    rw [encode_queryValues]
    intro h
    have hlen := congrArg String.length h
    simp only [String.length_append] at hlen
    have h16 : ("f=json&geometry=").length = 16 := by decide
    have h0 : ("").length = 0 := by decide
    omega
  unfold URL.String
  simp only [hne, if_false]
  have hbase : "https" ++ ":" ++ "//" ++ "services.arcgis.com" ++
      "/XG15cJAlne2vxtgt/arcgis/rest/services/National_Risk_Index_Counties/FeatureServer/0/query" =
      arcgisEndpoint := by decide
  rw [hbase, String.append_assoc]

/-- The tail of `run` after the resolver is the query client. -/
theorem run_eq_queryClient (w : World) (s : Effects) :
    run w s =
      match esriGeometryPointForAddress w s with
      | ((_, _, some err), s1) => (some ("error getting geometry for address: " ++ err), s1)
      | ((x, y, none), s1) => queryClient w x y s1 := by
  rfl

/-- Once the geometry is marshalled, the query client issues one request: the
endpoint with the encoded query of the eight parameters. -/
theorem queryClient_calls (w : World) (x y : Float64) (s : Effects) (g : String)
    (hg : jsonMarshalGeometry (geometryFor x y) = .ok g) :
    (queryClient w x y s).2.calls =
      s.calls ++ [NetCall.httpGet (arcgisEndpoint ++ "?" ++ (queryValues g).Encode)] := by
  have hu := urlString_queryValues g
  unfold queryValues at hu
  simp only at hu
  unfold geometryFor at hg
  unfold queryClient
  simp only [hg, urlParseEndpoint, URL.Query, hu]
  unfold queryValues
  simp only
  cases w.httpGet _ with
  | error err => rfl
  | ok resp =>
    obtain ⟨body⟩ := resp
    cases body with
    | error err => rfl
    | ok outBytes =>
      dsimp only
      cases w.jsonUnmarshal outBytes with
      | error err => rfl
      | ok res =>
        obtain ⟨fs⟩ := res
        rcases fs with _ | ⟨f, _ | ⟨g, t⟩⟩ <;> simp [Println]

/-- C5, refuted as stated: a coordinate is a pair of float64, and for a NaN
coordinate there is no geometry parameter: `json.Marshal` fails and the query
client returns the marshaling error without issuing a request. -/
theorem nan_coordinate_no_geometry :
    jsonMarshalGeometry (geometryFor Float64.nan dummyY) =
      .error "json: unsupported value: NaN" ∧
    (queryClient (constWorld "k" (.ok someLocation) (.ok { Features := [] }))
      Float64.nan dummyY Effects.initial).1 =
        some "error marshaling Geometry: json: unsupported value: NaN" ∧
    (queryClient (constWorld "k" (.ok someLocation) (.ok { Features := [] }))
      Float64.nan dummyY Effects.initial).2.calls = [] := by
  refine ⟨rfl, ?_, rfl⟩
  decide

/-- C5, amended: for every finite coordinate `(x, y)` handed to the query
client, the geometry parameter is the JSON object with the keys
`spatialReference`, `x`, `y` in this order, `spatialReference` being the object
with `latestWkid` 3857 and `wkid` 102100, and the numbers under `x` and `y` read
back as the coordinate's values; this text is the value of `geometry` in the one
request the client issues.  For `(-11677620.771308051, 4854685.755719238)`, the
coordinate the resolver hands over, it is exactly the text of the
specification. -/
theorem geometry_parameter_finite (w : World) (s : Effects) (x y : Float64)
    (hx : x.isIEEE = true) (hy : y.isIEEE = true) :
    (∃ xs ys : String,
      jsonMarshalGeometry (geometryFor x y) =
        .ok ("\x7b\"spatialReference\":\x7b\"latestWkid\":3857,\"wkid\":102100\x7d,\"x\":" ++ xs ++
          ",\"y\":" ++ ys ++ "\x7d") ∧
      readsBackAs xs x ∧ readsBackAs ys y ∧
      (queryClient w x y s).2.calls =
        s.calls ++ [NetCall.httpGet
          (arcgisEndpoint ++ "?" ++ (queryValues (geometryText xs ys)).Encode)] ∧
      (queryValues (geometryText xs ys)).lookup "geometry" = [geometryText xs ys] ∧
      (x = dummyX → y = dummyY → geometryText xs ys = geometryLiteral)) ∧
    jsonMarshalGeometry (geometryFor dummyX dummyY) =
      .ok "\x7b\"spatialReference\":\x7b\"latestWkid\":3857,\"wkid\":102100\x7d,\"x\":-11677620.771308051,\"y\":4854685.755719238\x7d" ∧
    jsonFloat dummyX = .ok "-11677620.771308051" ∧
    jsonFloat dummyY = .ok "4854685.755719238" ∧
    dummyX.isIEEE = true ∧ dummyY.isIEEE = true ∧
    (∀ (w0 : World) (s0 s1 : Effects) (x0 y0 : Float64),
      esriGeometryPointForAddress w0 s0 = ((x0, y0, none), s1) → (x0, y0) = (dummyX, dummyY)) := by
  refine ⟨?_, rfl, rfl, rfl, by decide, by decide, ?_⟩
  · obtain ⟨xs, hxs, hxr⟩ := jsonFloat_reads x hx
    obtain ⟨ys, hys, hyr⟩ := jsonFloat_reads y hy
    have hm : jsonMarshalGeometry (geometryFor x y) = .ok (geometryText xs ys) := by
      unfold jsonMarshalGeometry geometryFor
      simp only [hxs, hys]
      have h1 : toString (3857 : Int) = "3857" := by decide
      have h2 : toString (102100 : Int) = "102100" := by decide
      rw [h1, h2]
      congr 1
    refine ⟨xs, ys, hm, hxr, hyr, queryClient_calls w x y s _ hm, ?_, ?_⟩
    · rw [queryValues_eq]
      rfl
    · intro h1 h2
      subst h1 h2
      have hd : jsonMarshalGeometry (geometryFor dummyX dummyY) = .ok geometryLiteral := rfl
      rw [hm] at hd
      exact Except.ok.inj hd
  · intro w0 s0 s1 x0 y0 h
    obtain ⟨h1, h2⟩ := esri_handed w0 s0 s1 x0 y0 h
    rw [h1, h2]

/-- C5 amended, at the coordinate the resolver hands over. -/
theorem geometry_parameter_finite_witness :
    ∃ xs ys : String, readsBackAs xs dummyX ∧ readsBackAs ys dummyY ∧
      geometryText xs ys = geometryLiteral ∧
      (queryClient (constWorld "k" (.ok someLocation) (.ok { Features := [] })) dummyX dummyY
        Effects.initial).2.calls =
        [] ++ [NetCall.httpGet
          (arcgisEndpoint ++ "?" ++ (queryValues (geometryText xs ys)).Encode)] := by
  obtain ⟨⟨xs, ys, _, h2, h3, h4, _, h6⟩, _⟩ :=
    geometry_parameter_finite (constWorld "k" (.ok someLocation) (.ok { Features := [] }))
      Effects.initial dummyX dummyY (by decide) (by decide)
  exact ⟨xs, ys, h2, h3, h6 rfl rfl, h4⟩

/-- C6: the request `run` issues goes to the fixed feature-service endpoint, and
its query holds exactly eight parameters, one value each and no others:
`geometry` (the serialized geometry), `f=json`, `outFields=*`,
`spatialRel=esriSpatialRelIntersects`, `where=1=1`,
`geometryType=esriGeometryPoint`, `inSR=102100`, `outSR=102100`; only the value
of `geometry` depends on the geometry text, hence on the coordinate, in the
values as in the encoded query. -/
theorem request_parameters (w : World) (s : Effects) (loc : Location)
    (hgeo : w.Geocoding w.apiKey queriedAddress = .ok loc) :
    (run w s).2.calls =
      s.calls ++ [NetCall.geocoding w.apiKey queriedAddress, NetCall.httpGet requestURL] ∧
    requestURL = arcgisEndpoint ++ "?" ++ (queryValues geometryLiteral).Encode ∧
    (∀ g : String,
      URL.String
        { Scheme := "https", Host := "services.arcgis.com",
          Path := "/XG15cJAlne2vxtgt/arcgis/rest/services/National_Risk_Index_Counties/FeatureServer/0/query",
          RawQuery := (queryValues g).Encode } =
        arcgisEndpoint ++ "?" ++ (queryValues g).Encode) ∧
    (∀ g : String, (queryValues g).Encode =
      "f=json&geometry=" ++ QueryEscape g ++
        "&geometryType=esriGeometryPoint&inSR=102100&outFields=%2A&outSR=102100&spatialRel=esriSpatialRelIntersects&where=1%3D1") ∧
    (∀ g : String, (queryValues g).entries =
      [("geometry", [g]), ("f", ["json"]), ("outFields", ["*"]),
       ("spatialRel", ["esriSpatialRelIntersects"]), ("where", ["1=1"]),
       ("geometryType", ["esriGeometryPoint"]), ("inSR", ["102100"]), ("outSR", ["102100"])]) ∧
    (∀ g : String, (queryValues g).lookup "geometry" = [g]) ∧
    (∀ (g g' k : String), k ≠ "geometry" →
      (queryValues g).lookup k = (queryValues g').lookup k) := by
  refine ⟨run_calls w s loc hgeo, ?_, urlString_queryValues, encode_queryValues, ?_, ?_, ?_⟩
  · decide
  · intro g
    rw [queryValues_eq]
    rfl
  · intro g
    rw [queryValues_eq]
    rfl
  · intro g g' k hk
    rw [queryValues_eq, queryValues_eq]
    have hk' : ("geometry" == k) = false := by
      simpa using fun h : "geometry" = k => hk h.symm
    simp [Values.lookup, expectedParameters, List.find?, hk']

/-- C6, at a world whose geocoder answers. -/
theorem request_parameters_witness :
    (run (constWorld "k" (.ok someLocation) (.ok { Features := [] })) Effects.initial).2.calls =
      [] ++ [NetCall.geocoding "k" queriedAddress, NetCall.httpGet requestURL] :=
  (request_parameters (constWorld "k" (.ok someLocation) (.ok { Features := [] }))
    Effects.initial someLocation rfl).1

/-- C7: with the credential flag missing (empty), `main` prints its message,
exits with status 1 and has issued no network call, neither the geocoding call
nor the feature query: `run` is never entered. -/
theorem main_missing_key (w : World) (h : w.apiKey = "") :
    main w =
      (1, { stdout := "please provide a value for all --apiKey\n", stderr := "", calls := [] }) := by
  unfold main
  simp only [h, if_true]
  rfl

/-- C7, at a world whose geocoder and feature service would both answer. -/
theorem main_missing_key_witness :
    (main (constWorld "" (.ok someLocation) (.ok { Features := [{ Attritubes := exampleAttributes }] }))).1 = 1 ∧
    (main (constWorld "" (.ok someLocation) (.ok { Features := [{ Attritubes := exampleAttributes }] }))).2.calls = [] := by
  rw [main_missing_key _ rfl]
  exact ⟨rfl, rfl⟩

/-- C8, refuted as stated: at a failing run nothing is written to the error
stream; the error message is written to standard output. -/
theorem failing_run_message_on_stdout :
    (run (constWorld "k" (.error "boom") (.ok { Features := [] })) Effects.initial).1 =
      some "error getting geometry for address: failed to get coords from google maps: boom" ∧
    (main (constWorld "k" (.error "boom") (.ok { Features := [] }))).2.stderr = "" ∧
    (main (constWorld "k" (.error "boom") (.ok { Features := [] }))).2.stdout =
      "error getting geometry for address: failed to get coords from google maps: boom\n" ∧
    (main (constWorld "k" (.error "boom") (.ok { Features := [] }))).1 = 1 := by
  decide

/-- C8, amended: whenever `run` returns an error, `main` writes the error
message and a newline to standard output, writes nothing to the error stream,
and exits with status 1. -/
theorem main_failing_run (w : World) (err : String) (hkey : w.apiKey ≠ "")
    (hrun : (run w Effects.initial).1 = some err) :
    (main w).1 = 1 ∧ (main w).2.stdout = err ++ "\n" ∧ (main w).2.stderr = "" := by
  have hsilent := run_error_silent w Effects.initial (by rw [hrun]; simp)
  unfold main
  simp only [hkey, if_false]
  change (run w Effects.initial).1 = some err at hrun
  generalize hr : run w Effects.initial = r at hrun hsilent
  obtain ⟨e, s1⟩ := r
  simp only at hrun hsilent
  subst hrun
  simp only [Effects.initial] at hr hsilent
  simp only [Effects.initial, hr, Println, sprintln_one, hsilent.1, hsilent.2]
  simp

/-- C8 amended, at a world whose geocoder fails. -/
theorem main_failing_run_witness :
    (main (constWorld "k" (.error "boom") (.ok { Features := [] }))).1 = 1 ∧
    (main (constWorld "k" (.error "boom") (.ok { Features := [] }))).2.stdout =
      "error getting geometry for address: failed to get coords from google maps: boom" ++ "\n" ∧
    (main (constWorld "k" (.error "boom") (.ok { Features := [] }))).2.stderr = "" :=
  main_failing_run (constWorld "k" (.error "boom") (.ok { Features := [] }))
    "error getting geometry for address: failed to get coords from google maps: boom"
    (by decide) (by decide)

/-- C9: whatever the world answers, a run that returns an error (at the
geocoding, marshaling, URL, transport, body or decoding stage, or on a wrong
feature count) has printed nothing: neither the preamble nor a record.  The
preamble is written exactly when `run` returns no error, and then it is followed
by one record. -/
theorem run_prints_iff_ok (w : World) (s : Effects) :
    ((run w s).1 ≠ none → (run w s).2.stdout = s.stdout) ∧
    ((run w s).1 = none →
      ∃ a : Attributes, (run w s).2.stdout =
        s.stdout ++ "Here's some risk information about your home:\n" ++ (a.String ++ "\n")) ∧
    ((∃ t : String, (run w s).2.stdout =
        s.stdout ++ "Here's some risk information about your home:\n" ++ t) ↔
      (run w s).1 = none) := by
  refine ⟨fun h => (run_error_silent w s h).1, fun h => run_ok_output w s h, ?_, ?_⟩
  · rintro ⟨t, ht⟩
    by_contra hne
    rw [(run_error_silent w s hne).1] at ht
    have hlen := congrArg String.length ht
    simp only [String.length_append] at hlen
    have hp : ("Here's some risk information about your home:\n").length = 46 := by decide
    omega
  · intro h
    obtain ⟨a, ha⟩ := run_ok_output w s h
    exact ⟨_, ha⟩

/-- C10: `esriGeometryPointForAddress` returns an error exactly when the
geocoding call fails, and the error wraps the geocoder's; whenever the call
succeeds it returns the fixed pair (the float64 values of `-11677620.771308051`
and `4854685.755719238`), whatever location the geocoder answered, so two
successful calls return the same coordinate. -/
theorem esri_fixed_coordinate (w : World) (s : Effects) :
    ((esriGeometryPointForAddress w s).1.2.2 ≠ none ↔
      ∃ e, w.Geocoding w.apiKey queriedAddress = .error e) ∧
    (∀ e, w.Geocoding w.apiKey queriedAddress = .error e →
      (esriGeometryPointForAddress w s).1.2.2 =
        some ("failed to get coords from google maps: " ++ e)) ∧
    (∀ loc, w.Geocoding w.apiKey queriedAddress = .ok loc →
      (esriGeometryPointForAddress w s).1 = (dummyX, dummyY, none)) ∧
    (∀ (w2 : World) (s2 : Effects) (loc loc2 : Location),
      w.Geocoding w.apiKey queriedAddress = .ok loc →
      w2.Geocoding w2.apiKey queriedAddress = .ok loc2 →
      (esriGeometryPointForAddress w s).1 = (esriGeometryPointForAddress w2 s2).1) ∧
    (esriGeometryPointForAddress w s).2.calls =
      s.calls ++ [NetCall.geocoding w.apiKey queriedAddress] ∧
    dummyX = Float64.finite true 6269374913482297 (-29) ∧
    |dummyX.magnitude - 11677620771308051 / 1000000000| ≤ (2 : ℚ) ^ (-30 : Int) ∧
    dummyY = Float64.finite false 5212679138292793 (-30) ∧
    |dummyY.magnitude - 4854685755719238 / 1000000000| ≤ (2 : ℚ) ^ (-31 : Int) := by
  have hok : ∀ (w : World) (s : Effects) (loc : Location),
      w.Geocoding w.apiKey queriedAddress = .ok loc →
      (esriGeometryPointForAddress w s).1 = (dummyX, dummyY, none) := by
    intro w s loc h
    unfold esriGeometryPointForAddress
    simp only [queriedAddress] at h
    simp only [h]
  have herr : ∀ e, w.Geocoding w.apiKey queriedAddress = .error e →
      (esriGeometryPointForAddress w s).1.2.2 =
        some ("failed to get coords from google maps: " ++ e) := by
    intro e h
    unfold esriGeometryPointForAddress
    simp only [queriedAddress] at h
    simp only [h]
  refine ⟨?_, herr, hok w s, ?_, ?_, rfl, ?_, rfl, ?_⟩
  · cases hg : w.Geocoding w.apiKey queriedAddress with
    | error e => rw [herr e hg]; simp
    | ok loc => rw [hok w s loc hg]; simp
  · intro w2 s2 loc loc2 h1 h2
    rw [hok w s loc h1, hok w2 s2 loc2 h2]
  · rw [esri_effects]
  · simp only [dummyX, Float64.magnitude]
    rw [abs_le]
    norm_num
  · simp only [dummyY, Float64.magnitude]
    rw [abs_le]
    norm_num

/-- C10, at a geocoder that fails and at one that answers. -/
theorem esri_fixed_coordinate_witness :
    (esriGeometryPointForAddress (constWorld "k" (.error "boom") (.ok { Features := [] }))
      Effects.initial).1.2.2 = some ("failed to get coords from google maps: " ++ "boom") ∧
    (esriGeometryPointForAddress (constWorld "k" (.ok someLocation) (.ok { Features := [] }))
      Effects.initial).1 = (dummyX, dummyY, none) :=
  ⟨(esri_fixed_coordinate (constWorld "k" (.error "boom") (.ok { Features := [] }))
      Effects.initial).2.1 "boom" rfl,
   (esri_fixed_coordinate (constWorld "k" (.ok someLocation) (.ok { Features := [] }))
      Effects.initial).2.2.1 someLocation rfl⟩

end FemaCli
